import Mathlib

/-! # glog: level model, caller resolver, console writer and file writers

A shallow embedding of `src/common/glogger.go`, `src/common/console.go`,
`src/common/file.go` (synchronous file logger) and `src/file.go`
(asynchronous file logger), followed by the theorems about them.

Conventions.
* Go `string` is `String`; runes are `Char`.
* Go `(T, error)` results are pairs `T × Option String` (`none` is `nil`).
* A Go `panic` is `Except.error`.
* `LogLevel` (`uint16`) is `Nat`; every theorem quantifying over levels
  holds for all naturals, hence for all 16-bit values.
-/

namespace Glog

/-! ## Level model (`src/common/glogger.go`) -/

deriving instance DecidableEq for Except

/-- Go `type LogLevel uint16`. -/
abbrev LogLevel := Nat

/-- Constant `UNKNOW LogLevel = iota`. -/
def UNKNOW : LogLevel := 0
/-- Constant `Trace`. -/
def Trace : LogLevel := 1
/-- Constant `Debug`. -/
def Debug : LogLevel := 2
/-- Constant `Info`. -/
def Info : LogLevel := 3
/-- Constant `Warn`. -/
def Warn : LogLevel := 4
/-- Constant `Error`. -/
def Error : LogLevel := 5

/-- ASCII branch of Go `unicode.ToUpper` (and the fast path of
`strings.ToUpper`): `if 'a' <= c && c <= 'z' { c -= 'a' - 'A' }`. -/
def asciiUpper (c : Char) : Char :=
  if 97 ≤ c.toNat ∧ c.toNat ≤ 122 then Char.ofNat (c.toNat - 32) else c

/-- Lookup in Go's `unicode.CaseRanges` for a rune above `MaxASCII`.
Only two entries of that table send a non-ASCII rune to an ASCII one:
`{0x0131, 0x0131, d{-232, 0, -232}}` (dotless i, upper case `I`) and
`{0x017F, 0x017F, d{-300, 0, -300}}` (long s, upper case `S`).
Every other entry maps a non-ASCII rune to a non-ASCII rune; those are
kept fixed here, which no comparison against an ASCII word can tell apart. -/
def caseRangesUpper (r : Char) : Char :=
  if r.toNat = 0x131 then Char.ofNat (r.toNat - 232)
  else if r.toNat = 0x17F then Char.ofNat (r.toNat - 300)
  else r

/-- Go `unicode.ToUpper`: ASCII letters by arithmetic, other runes through
`CaseRanges`. -/
def unicodeToUpper (r : Char) : Char :=
  if r.toNat ≤ 0x7F then asciiUpper r else caseRangesUpper r

/-- Go `strings.ToUpper`: an ASCII-only string takes the byte loop, any
other string is `Map(unicode.ToUpper, s)`. -/
def ToUpper (s : String) : String :=
  if s.data.all (fun c => decide (c.toNat < 0x80)) then
    if s.data.any (fun c => decide (97 ≤ c.toNat ∧ c.toNat ≤ 122)) then
      String.mk (s.data.map asciiUpper)
    else s
  else String.mk (s.data.map unicodeToUpper)

/-- Message of the error returned by `parseString2LogLevel`. -/
def errParseLevel : String := "法将字符串转为 LogLevel"

/-- Message of the error returned by `parseLogLevel2String`. -/
def errLevelString : String := "无法将 LogLevel 转为字符串"

/-- Source `parseString2LogLevel`: switch on `strings.ToUpper(level)`. -/
def parseString2LogLevel (level : String) : LogLevel × Option String :=
  let u := ToUpper level
  if u = "TRACE" then (Trace, none)
  else if u = "DEBUG" then (Debug, none)
  else if u = "INFO" then (Info, none)
  else if u = "WARN" then (Warn, none)
  else if u = "ERROR" then (Error, none)
  else (UNKNOW, some errParseLevel)

/-- Source `parseLogLevel2String`: switch on the level. -/
def parseLogLevel2String (logLevel : LogLevel) : String × Option String :=
  if logLevel = Trace then ("TRACE", none)
  else if logLevel = Debug then ("DEBUG", none)
  else if logLevel = Info then ("INFO", none)
  else if logLevel = Warn then ("WARN", none)
  else if logLevel = Error then ("ERROR", none)
  else ("", some errLevelString)

/-- The padding loop shared by all three `log` bodies:
`for i := 0; i < formatLen; i++ { levelStr = " " + levelStr }`,
as a recursion on the number of iterations left. -/
def padLoop : Nat → String → String
  | 0, levelStr => levelStr
  | n + 1, levelStr => padLoop n (" " ++ levelStr)

/-- The level label: `levelStr, _ := parseLogLevel2String(level)`,
`formatLen := 5 - len(levelStr)` (an `int`, `len` counting bytes) and the
padding loop, which runs `formatLen` times when that is positive and not
at all otherwise. -/
def levelLabel (level : LogLevel) : String :=
  let levelStr := (parseLogLevel2String level).1
  let formatLen : Int := 5 - (levelStr.utf8ByteSize : Int)
  padLoop formatLen.toNat levelStr

/-! ## Library functions used by the loggers -/

/-- Go `strings.Split(s, sep)` for a one-byte separator, on the runes of
`s`: the pieces between consecutive separators, `Count(s, sep) + 1` of
them (a single empty piece for the empty string). -/
def splitRunes (sep : Char) : List Char → List (List Char)
  | [] => [[]]
  | c :: cs =>
    if c = sep then [] :: splitRunes sep cs
    else
      match splitRunes sep cs with
      | piece :: pieces => (c :: piece) :: pieces
      | [] => [[c]]

/-- Go `strings.Split(s, ".")`-style call with a one-rune separator. -/
def stringsSplit (s : String) (sep : Char) : List String :=
  (splitRunes sep s.data).map String.mk

/-- Go `path.Base`: `"."` for the empty path, trailing slashes stripped,
then the part after the last slash, `"/"` when nothing is left. -/
def pathBase (p : String) : String :=
  if p = "" then "."
  else
    let stripped := (p.data.reverse.dropWhile (fun c => c = '/')).reverse
    let last := (stripped.reverse.takeWhile (fun c => c ≠ '/')).reverse
    if last = [] then "/" else String.mk last

/-- What `runtime.Caller(skip)` and `runtime.FuncForPC(pc).Name()` report
for a resolved frame. The runtime names a function by the symbol prefix of
its package, a dot, and the function's name inside the package. The prefix
is the import path as the linker spells it: a dot in the last path element
and the bytes that symbol names cannot hold are already written `%xx`
there (`example.com/my%2epkg` for the import path `example.com/my.pkg`),
and a path whose last element has no such byte is its own prefix. -/
structure Frame where
  pkgPrefix : String
  name : String
  file : String
  line : Int
deriving DecidableEq, Repr

/-- Value of `runtime.FuncForPC(pc).Name()` for the frame. -/
def Frame.function (fr : Frame) : String := fr.pkgPrefix ++ "." ++ fr.name

/-- Source `getInfo`. The argument is the outcome of `runtime.Caller(skip)`
(`none` when `ok` is false). The index expression
`strings.Split(funcName, ".")[1]` panics when the split has fewer than two
pieces. Result order: `(funcName, fileName, lineNo)`. -/
def getInfo (caller : Option Frame) : Except String (String × String × Int) :=
  match caller with
  | none => .ok ("", "", 0)
  | some fr =>
    match (stringsSplit fr.function '.').get? 1 with
    | none => .error "index out of range [1]"
    | some funcName => .ok (funcName, pathBase fr.file, fr.line)

/-- What `getInfo` prints to standard output: the line of
`fmt.Println("runtime.Caller error.")` when the frame is not resolved. -/
def getInfoPrinted (caller : Option Frame) : List String :=
  match caller with
  | none => ["runtime.Caller error.\n"]
  | some _ => []

/-- One decimal digit as a rune. -/
def digitChar (n : Nat) : Char := Char.ofNat (48 + n % 10)

/-- Two-digit zero-padded field of Go's `time` layouts (`01`, `02`, `15`,
`04`, `05`). -/
def twoDigits (n : Nat) : List Char := [digitChar (n / 10), digitChar n]

/-- Four-digit zero-padded year field (`2006`), for years 0 to 9999. -/
def fourDigits (n : Nat) : List Char :=
  [digitChar (n / 1000), digitChar (n / 100), digitChar (n / 10), digitChar n]

/-- A wall-clock reading returned by `time.Now()`, by its calendar fields. -/
structure Time where
  year : Nat
  month : Nat
  day : Nat
  hour : Nat
  minute : Nat
  second : Nat
deriving DecidableEq, Repr

/-- Rendering `now.Format("2006-01-02 15:04:05")`. -/
def Time.formatStamp (t : Time) : String :=
  String.mk (fourDigits t.year ++ ['-'] ++ twoDigits t.month ++ ['-'] ++ twoDigits t.day
    ++ [' '] ++ twoDigits t.hour ++ [':'] ++ twoDigits t.minute ++ [':'] ++ twoDigits t.second)

/-- Rendering `time.Now().Format("20060102150405")`. -/
def Time.formatCompact (t : Time) : String :=
  String.mk (fourDigits t.year ++ twoDigits t.month ++ twoDigits t.day
    ++ twoDigits t.hour ++ twoDigits t.minute ++ twoDigits t.second)

/-! ### `fmt` formatting

`formatLine` is `fmt.Sprintf("[%s] [%s] [%s:%s:%d] - %s\n", ...)` with its six
operands: `%s` copies a string operand and `%d` prints an `int` in decimal.

`doPrintf` is Go's `(*pp).doPrintf(format, a)` for an EMPTY operand list,
which is what `fmt.Fprintf(w, format)` runs. -/

/-- The line format with its operands substituted. -/
def formatLine (timestamp levelStr fileName funcName : String) (line : Int) (msg : String) :
    String :=
  "[" ++ timestamp ++ "] [" ++ levelStr ++ "] [" ++ fileName ++ ":" ++ funcName ++ ":"
    ++ toString line ++ "] - " ++ msg ++ "\n"

/-- Flag characters skipped after a percent sign. -/
def isFlag (c : Char) : Bool :=
  c = '#' || c = '0' || c = '+' || c = '-' || c = ' '

/-- Go `fmt.tooLarge`. -/
def tooLarge (x : Nat) : Bool := decide (x > 1000000)

/-- Go `fmt.parsenum` on the slice it is given: the number read, whether
a digit was read, and what is left of the slice (nothing on overflow). -/
def parsenum : List Char → Nat → Bool → Nat × Bool × List Char
  | [], num, isnum => (num, isnum, [])
  | c :: cs, num, isnum =>
    if 48 ≤ c.toNat ∧ c.toNat ≤ 57 then
      if tooLarge num then (0, false, [])
      else parsenum cs (num * 10 + (c.toNat - 48)) true
    else (num, isnum, c :: cs)

/-- Go `fmt.parseArgNumber` on a format starting with `[`: whether a
bracketed number was parsed, and the format after the consumed part. With
no operands the parsed index itself is never in range, so it is dropped. -/
def parseArgNumber (format : List Char) : Bool × List Char :=
  if format.length < 3 then (false, format.drop 1)
  else
    let body := format.drop 1
    match body.dropWhile (fun c => c ≠ ']') with
    | [] => (false, format.drop 1)
    | _ :: rest =>
      let r := parsenum (body.takeWhile (fun c => c ≠ ']')) 0 false
      if r.2.1 && r.2.2.isEmpty then (true, rest) else (false, rest)

/-- Go `(*pp).argNumber` with `numArgs = 0`: the format after an optional
bracketed index, whether one was found, and the new `goodArgNum`. -/
def argNumber (format : List Char) (good : Bool) : List Char × Bool × Bool :=
  match format with
  | '[' :: _ =>
    let r := parseArgNumber format
    (r.2, r.1, false)
  | _ => (format, false, good)

/-- The width part of a verb, after the optional argument index `a1`
(format left, index found, `goodArgNum`): a star asks for an operand that is
not there and writes `%!(BADWIDTH)`, otherwise `parsenum` reads the digits.
Result: bytes written, format left, `afterIndex`, `goodArgNum`. -/
def widthStage (a1 : List Char × Bool × Bool) : List Char × List Char × Bool × Bool :=
  match a1.1 with
  | '*' :: t => ("%!(BADWIDTH)".data, t, false, a1.2.2)
  | s2 =>
    let r := parsenum s2 0 false
    ([], r.2.2, a1.2.1, if a1.2.1 && r.2.1 then false else a1.2.2)

/-- The precision part of a verb, `if i+1 < end && format[i] == '.'`: entered
on a dot that is not the last byte of the format (a last dot is left to be
read as the verb); an optional argument index, then a star (writing
`%!(BADPREC)`) or digits.
Result: bytes written, format left, `afterIndex`, `goodArgNum`. -/
def precStage (w : List Char × List Char × Bool × Bool) : List Char × List Char × Bool × Bool :=
  match w.2.1 with
  | '.' :: c :: rest =>
    let a2 := argNumber (c :: rest) (if w.2.2.1 then false else w.2.2.2)
    match a2.1 with
    | '*' :: t2 => ("%!(BADPREC)".data, t2, false, a2.2.2)
    | t1 => ([], (parsenum t1 0 false).2.2, a2.2.1, a2.2.2)
  | s3 => ([], s3, w.2.2.1, w.2.2.2)

/-- The statement `if !afterIndex { argNum, i, afterIndex = p.argNumber(...) }`:
format left and `goodArgNum`. -/
def indexStage (p : List Char × List Char × Bool × Bool) : List Char × Bool :=
  if p.2.2.1 then (p.2.1, p.2.2.2)
  else
    let r := argNumber p.2.1 p.2.2.2
    (r.1, r.2.2)

/-- One verb of `doPrintf`, starting right after the percent sign: flags,
argument index, width, precision, argument index, verb. Result: the bytes
written and the rest of the format (`none` when the loop breaks on a
missing verb). With no operands a verb other than `%` has a bad index or a
missing operand. -/
def verbStep (s0 : List Char) : List Char × Option (List Char) :=
  let w := widthStage (argNumber (s0.dropWhile isFlag) true)
  let p := precStage w
  let a3 := indexStage p
  match a3.1 with
  | [] => (w.1 ++ p.1 ++ "%!(NOVERB)".data, none)
  | verb :: t =>
    if verb = '%' then (w.1 ++ p.1 ++ ['%'], some t)
    else if a3.2 then (w.1 ++ p.1 ++ "%!".data ++ [verb] ++ "(MISSING)".data, some t)
    else (w.1 ++ p.1 ++ "%!".data ++ [verb] ++ "(BADINDEX)".data, some t)

/-- The format loop of `doPrintf` with no operands; the first argument
bounds the number of verbs and `format.length + 1` always suffices. -/
def doPrintfLoop : Nat → List Char → List Char
  | 0, _ => []
  | fuel + 1, format =>
    let lit := format.takeWhile (fun c => c ≠ '%')
    match format.dropWhile (fun c => c ≠ '%') with
    | [] => lit
    | _ :: rest =>
      match verbStep rest with
      | (out, none) => lit ++ out
      | (out, some next) => lit ++ out ++ doPrintfLoop fuel next

/-- Bytes produced by `fmt.Fprintf(w, format)` called with no operands. -/
def doPrintf (format : String) : String :=
  String.mk (doPrintfLoop (format.length + 1) format.data)

/-! ## Operating-system model

Files are named by their path. A file's content is the list of the writes
appended to it; each write carries, as a ghost field that no operation
reads, the level of the record it was made for. -/

/-- One completed `Write` call: its bytes, and (ghost) the level of the
record being written. -/
structure Chunk where
  origin : LogLevel
  bytes : String
deriving DecidableEq, Repr

/-- The file system: the content of every existing file, and the paths on
which the system refuses to open, create or rename-to. -/
structure Disk where
  files : String → Option (List Chunk)
  denied : String → Bool

/-- An open `*os.File`, identified by the path it was opened at. -/
structure OsFile where
  path : String
deriving DecidableEq, Repr

/-- Size in bytes of a file's content. -/
def contentSize (cs : List Chunk) : Int :=
  ((cs.map (fun c => c.bytes.utf8ByteSize)).sum : Nat)

/-- Go `os.OpenFile(name, O_CREATE|O_WRONLY|O_APPEND, 0644)`: fails on a
denied path, creates the file empty when it does not exist. -/
def OpenFile (d : Disk) (name : String) : Except String (OsFile × Disk) :=
  if d.denied name then .error ("open " ++ name ++ ": permission denied")
  else
    match d.files name with
    | some _ => .ok (⟨name⟩, d)
    | none => .ok (⟨name⟩, { d with files := fun p => if p = name then some [] else d.files p })

/-- Go `(*os.File).Stat` followed by `Size()`: `none` is a Stat error. -/
def Stat (d : Disk) (file : OsFile) : Option Int :=
  (d.files file.path).map contentSize

/-- Go `os.Rename(oldpath, newpath)`, whose error the callers discard: when
it succeeds the content moves to the new path (replacing what was there). -/
def Rename (d : Disk) (oldpath newpath : String) : Disk :=
  match d.files oldpath with
  | none => d
  | some content =>
    if d.denied newpath then d
    else
      { d with files := fun p =>
          if p = newpath then some content else if p = oldpath then none else d.files p }

/-- A `Write` on a handle opened with `O_APPEND`: the chunk goes to the end
of the file (the error on a missing file is discarded by the callers). -/
def Write (d : Disk) (file : OsFile) (c : Chunk) : Disk :=
  match d.files file.path with
  | none => d
  | some content =>
    { d with files := fun p => if p = file.path then some (content ++ [c]) else d.files p }

/-- A buffered Go channel: pending elements, oldest first, and capacity. -/
structure Chan (α : Type) where
  buf : List α
  cap : Nat

/-- Go `make(chan T, cap)`. -/
def Chan.make {α : Type} (cap : Nat) : Chan α := ⟨[], cap⟩

/-- Statement `select { case ch <- x: default: }`: the send happens only when
the buffer has room; otherwise the default branch runs. -/
def Chan.trySend {α : Type} (ch : Chan α) (x : α) : Chan α :=
  if ch.buf.length < ch.cap then { ch with buf := ch.buf ++ [x] } else ch

/-- Statement `select { case x := <-ch: ... default: ... }`: the oldest
element when there is one. -/
def Chan.tryRecv {α : Type} (ch : Chan α) : Option (α × Chan α) :=
  match ch.buf with
  | [] => none
  | x :: rest => some (x, { ch with buf := rest })

/-- Constant `InfoLogSubfix`. -/
def InfoLogSubfix : String := ".log"
/-- Constant `ErrorLogSubfix`. -/
def ErrorLogSubfix : String := "-error.log"

/-! ## Console writer (`src/common/console.go`) -/

/-- Source `ConsoleLogger`. -/
structure ConsoleLogger where
  Level : LogLevel
deriving DecidableEq, Repr

/-- Source `NewLog`: panics on an invalid level name. -/
def NewLog (levelStr : String) : Except String ConsoleLogger :=
  match parseString2LogLevel levelStr with
  | (_, some err) => .error err
  | (level, none) => .ok ⟨level⟩

/-- Source `ConsoleLogger.enable`. -/
def ConsoleLogger.enable (c : ConsoleLogger) (level : LogLevel) : Bool :=
  decide (level ≥ c.Level)

/-- Source `ConsoleLogger.log`. `msg` is the value of
`fmt.Sprintf(format, a...)`, `now` of `time.Now()`, `caller` the outcome of
`runtime.Caller(3)`; `stdout` is the list of writes made to standard
output so far, to which `getInfo` adds its diagnostic and `fmt.Fprintf` the
record line. -/
def ConsoleLogger.log (c : ConsoleLogger) (level : LogLevel) (msg : String) (now : Time)
    (caller : Option Frame) (stdout : List String) : Except String (List String) :=
  if !c.enable level then .ok stdout
  else
    let levelStr := levelLabel level
    match getInfo caller with
    | .error e => .error e
    | .ok (funcName, fileName, lineNo) =>
      .ok (stdout ++ getInfoPrinted caller
        ++ [formatLine now.formatStamp levelStr fileName funcName lineNo msg])

/-! ## File loggers

`pathJoin` stands for Go's `path.Join`, of which the loggers only use that
it is a function of the directory and the base name. The state of a file
logger is the logger and the file system; the diagnostics it prints to
standard output on an I/O error are not part of it. -/

section FileLoggers

variable (pathJoin : String → String → String)

/-! ### Synchronous file logger (`src/common/file.go`) -/

namespace Common

/-- Source `FileLogger` of `src/common/file.go`. -/
structure FileLogger where
  Level : LogLevel
  filePath : String
  fileName : String
  maxFileSize : Int
  fileObj : OsFile
  errFileObj : OsFile

/-- The logger together with the file system it acts on. -/
structure State where
  f : FileLogger
  disk : Disk

/-- Source `FileLogger.initFile`: the new state and the returned error. -/
def initFile (st : State) : State × Option String :=
  let fullFileName := pathJoin st.f.filePath st.f.fileName
  match OpenFile st.disk (fullFileName ++ InfoLogSubfix) with
  | .error err => (st, some err)
  | .ok (fileObj, disk) => ({ f := { st.f with fileObj := fileObj }, disk := disk }, none)

/-- Source `FileLogger.initErrFile`: the new state and the returned error. -/
def initErrFile (st : State) : State × Option String :=
  let fullFileName := pathJoin st.f.filePath st.f.fileName
  match OpenFile st.disk (fullFileName ++ ErrorLogSubfix) with
  | .error err => (st, some err)
  | .ok (errFileObj, disk) => ({ f := { st.f with errFileObj := errFileObj }, disk := disk }, none)

/-- Source `NewFileLogger`; the handles are nil until the init calls. -/
def NewFileLogger (levelStr fp fn : String) (maxSize : Int) (disk : Disk) :
    Except String State :=
  match parseString2LogLevel levelStr with
  | (_, some err) => .error err
  | (logLevel, none) =>
    let file : State :=
      { f := { Level := logLevel, filePath := fp, fileName := fn, maxFileSize := maxSize,
               fileObj := ⟨""⟩, errFileObj := ⟨""⟩ },
        disk := disk }
    match initFile pathJoin file with
    | (_, some err) => .error err
    | (st1, none) =>
      match initErrFile pathJoin st1 with
      | (_, some err) => .error err
      | (st2, none) => .ok st2

/-- Source `FileLogger.enable`. -/
def enable (f : FileLogger) (level : LogLevel) : Bool :=
  decide (level ≥ f.Level)

/-- Source `FileLogger.needCut`: false on a Stat error, else
`fileInfo.Size() >= f.maxFileSize`. -/
def needCut (st : State) (file : OsFile) : Bool :=
  match Stat st.disk file with
  | none => false
  | some size => decide (size ≥ st.f.maxFileSize)

/-- Source `FileLogger.splitFile`; `now` is the value of `time.Now()`.
Closing the old handle leaves the file system as it is. -/
def splitFile (st : State) (_file : OsFile) (level : LogLevel) (now : Time) :
    Except String State :=
  let fullFileName := pathJoin st.f.filePath st.f.fileName
  let nowStr := now.formatCompact
  if level ≥ Error then
    let newLogName := fullFileName ++ "-error-" ++ nowStr ++ ".log"
    let disk := Rename st.disk (fullFileName ++ ErrorLogSubfix) newLogName
    match initErrFile pathJoin { st with disk := disk } with
    | (_, some err) => .error err
    | (st1, none) => .ok st1
  else
    let newLogName := fullFileName ++ "-" ++ nowStr ++ ".log"
    let disk := Rename st.disk (fullFileName ++ InfoLogSubfix) newLogName
    match initFile pathJoin { st with disk := disk } with
    | (_, some err) => .error err
    | (st1, none) => .ok st1

/-- The statement `if f.needCut(file) { f.splitFile(file, level) }`. -/
def cutIfNeeded (st : State) (file : OsFile) (level : LogLevel) (now : Time) :
    Except String State :=
  if needCut st file then splitFile pathJoin st file level now else .ok st

/-- Source `FileLogger.log` of `src/common/file.go`. `msg` is the value of
`fmt.Sprintf(format, a...)`, `now` of the first `time.Now()`, `caller` the
outcome of `runtime.Caller(3)`, `cutTime` the `time.Now()` read by
`splitFile` when it runs. -/
def log (st : State) (level : LogLevel) (msg : String) (now : Time) (caller : Option Frame)
    (cutTime : Time) : Except String State :=
  if !enable st.f level then .ok st
  else
    let levelStr := levelLabel level
    match getInfo caller with
    | .error e => .error e
    | .ok (funcName, fileName, lineNo) =>
      let line := formatLine now.formatStamp levelStr fileName funcName lineNo msg
      if level ≥ Error then
        match cutIfNeeded pathJoin st st.f.errFileObj level cutTime with
        | .error e => .error e
        | .ok st1 => .ok { st1 with disk := Write st1.disk st1.f.errFileObj ⟨level, line⟩ }
      else
        match cutIfNeeded pathJoin st st.f.fileObj level cutTime with
        | .error e => .error e
        | .ok st1 => .ok { st1 with disk := Write st1.disk st1.f.fileObj ⟨level, line⟩ }

end Common

/-! ### Asynchronous file logger (`src/file.go`) -/

/-- Source `logMsg`. -/
structure logMsg where
  Level : LogLevel
  msg : String
  fileName : String
  funcName : String
  timestamp : String
  line : Int
deriving DecidableEq, Repr

/-- Source `FileLogger` of `src/file.go`. -/
structure FileLogger where
  Level : LogLevel
  filePath : String
  fileName : String
  maxFileSize : Int
  fileObj : OsFile
  errFileObj : OsFile
  logChan : Chan logMsg

/-- The logger, the file system it acts on, and the number of
`go f.writeLogBackground()` statements executed so far. -/
structure State where
  f : FileLogger
  disk : Disk
  drainTasks : Nat

/-- Source `FileLogger.initFile`: open the info file, store the handle,
start a drain task. The new state and the returned error. -/
def initFile (st : State) : State × Option String :=
  let fullFileName := pathJoin st.f.filePath st.f.fileName
  match OpenFile st.disk (fullFileName ++ InfoLogSubfix) with
  | .error err => (st, some err)
  | .ok (fileObj, disk) =>
    ({ f := { st.f with fileObj := fileObj }, disk := disk, drainTasks := st.drainTasks + 1 },
      none)

/-- Source `FileLogger.initErrFile`: open the error file, store the handle,
start a drain task. The new state and the returned error. -/
def initErrFile (st : State) : State × Option String :=
  let fullFileName := pathJoin st.f.filePath st.f.fileName
  match OpenFile st.disk (fullFileName ++ ErrorLogSubfix) with
  | .error err => (st, some err)
  | .ok (errFileObj, disk) =>
    ({ f := { st.f with errFileObj := errFileObj }, disk := disk,
       drainTasks := st.drainTasks + 1 }, none)

/-- Source `NewFileLogger`; the handles are nil until the init calls and no
drain task runs before them. -/
def NewFileLogger (levelStr fp fn : String) (maxSize : Int) (disk : Disk) :
    Except String State :=
  match parseString2LogLevel levelStr with
  | (_, some err) => .error err
  | (logLevel, none) =>
    let file : State :=
      { f := { Level := logLevel, filePath := fp, fileName := fn, maxFileSize := maxSize,
               fileObj := ⟨""⟩, errFileObj := ⟨""⟩, logChan := Chan.make 50000 },
        disk := disk, drainTasks := 0 }
    match initFile pathJoin file with
    | (_, some err) => .error err
    | (st1, none) =>
      match initErrFile pathJoin st1 with
      | (_, some err) => .error err
      | (st2, none) => .ok st2

/-- Source `FileLogger.enable`. -/
def enable (f : FileLogger) (level : LogLevel) : Bool :=
  decide (level ≥ f.Level)

/-- Source `FileLogger.log` of `src/file.go`. `msg` is the value of
`fmt.Sprintf(format, a...)`, `now` of `time.Now()`, `caller` the outcome of
`runtime.Caller(3)`. -/
def log (st : State) (level : LogLevel) (msg : String) (now : Time) (caller : Option Frame) :
    Except String State :=
  if !enable st.f level then .ok st
  else
    match getInfo caller with
    | .error e => .error e
    | .ok (funcName, fileName, lineNo) =>
      let logMsgPoint : logMsg :=
        { Level := level, msg := msg, fileName := fileName, funcName := funcName,
          timestamp := now.formatStamp, line := lineNo }
      .ok { st with f := { st.f with logChan := st.f.logChan.trySend logMsgPoint } }

/-- Source `FileLogger.needCut`: false on a Stat error, else
`fileInfo.Size() >= f.maxFileSize`. -/
def needCut (st : State) (file : OsFile) : Bool :=
  match Stat st.disk file with
  | none => false
  | some size => decide (size ≥ st.f.maxFileSize)

/-- Source `FileLogger.splitFile`; `now` is the value of `time.Now()`.
Closing the old handle leaves the file system as it is. -/
def splitFile (st : State) (_file : OsFile) (level : LogLevel) (now : Time) :
    Except String State :=
  let fullFileName := pathJoin st.f.filePath st.f.fileName
  let nowStr := now.formatCompact
  if level ≥ Error then
    let newLogName := fullFileName ++ "-error-" ++ nowStr ++ ".log"
    let disk := Rename st.disk (fullFileName ++ ErrorLogSubfix) newLogName
    match initErrFile pathJoin { st with disk := disk } with
    | (_, some err) => .error err
    | (st1, none) => .ok st1
  else
    let newLogName := fullFileName ++ "-" ++ nowStr ++ ".log"
    let disk := Rename st.disk (fullFileName ++ InfoLogSubfix) newLogName
    match initFile pathJoin { st with disk := disk } with
    | (_, some err) => .error err
    | (st1, none) => .ok st1

/-- The statement `if f.needCut(file) { f.splitFile(file, level) }`. -/
def cutIfNeeded (st : State) (file : OsFile) (level : LogLevel) (now : Time) :
    Except String State :=
  if needCut st file then splitFile pathJoin st file level now else .ok st

/-- The line `fmt.Sprintf("[%s] [%s] [%s:%s:%d] - %s\n", ...)` built by
`writeLogBackground` for a dequeued record. -/
def logStringFormat (m : logMsg) : String :=
  formatLine m.timestamp (levelLabel m.Level) m.fileName m.funcName m.line m.msg

/-- The receive branch of `writeLogBackground` for the dequeued record `m`:
build the line, pick the handle, cut if needed, then
`fmt.Fprintf(handle, logStringFormat)`, the line being passed as the FORMAT
with no operands. `now` is the `time.Now()` read by `splitFile`. -/
def writeRecord (st : State) (m : logMsg) (now : Time) : Except String State :=
  let level := m.Level
  let line := logStringFormat m
  if level ≥ Error then
    match cutIfNeeded pathJoin st st.f.errFileObj level now with
    | .error e => .error e
    | .ok st1 => .ok { st1 with disk := Write st1.disk st1.f.errFileObj ⟨level, doPrintf line⟩ }
  else
    match cutIfNeeded pathJoin st st.f.fileObj level now with
    | .error e => .error e
    | .ok st1 => .ok { st1 with disk := Write st1.disk st1.f.fileObj ⟨level, doPrintf line⟩ }

/-- One iteration of the loop of source `writeLogBackground`: receive and
write the oldest pending record, or sleep when the channel is empty. -/
def writeLogBackground (st : State) (now : Time) : Except String State :=
  match st.f.logChan.tryRecv with
  | some (logMsgPoint, rest) =>
    writeRecord pathJoin { st with f := { st.f with logChan := rest } } logMsgPoint now
  | none => .ok st

end FileLoggers

/-! ## Vocabulary of the statements -/

/-- The five named levels. -/
def namedLevels : List LogLevel := [Trace, Debug, Info, Warn, Error]

/-- The five level names. -/
def levelNames : List String := ["TRACE", "DEBUG", "INFO", "WARN", "ERROR"]

/-- Each level name with the level it names. -/
def levelTable : List (String × LogLevel) :=
  [("TRACE", Trace), ("DEBUG", Debug), ("INFO", Info), ("WARN", Warn), ("ERROR", Error)]

/-- Equality of two strings ignoring the case of the letters A-Z / a-z. -/
def eqIgnoreAsciiCase (s t : String) : Bool :=
  decide (s.data.map asciiUpper = t.data.map asciiUpper)

/-- Replace every dotless i (U+0131) by the ASCII letter `i`. -/
def undotChar (c : Char) : Char := if c.toNat = 0x131 then 'i' else c

/-- Replace every dotless i (U+0131) of a string by the ASCII letter `i`. -/
def dotlessToI (s : String) : String := String.mk (s.data.map undotChar)

/-- Names of the info stream of a logger with joined name `full`: the live
file and every timestamped archive of it. -/
def IsInfoName (full p : String) : Prop :=
  p = full ++ InfoLogSubfix ∨ ∃ t : Time, p = full ++ "-" ++ t.formatCompact ++ ".log"

/-- Names of the error stream of a logger with joined name `full`: the live
file and every timestamped archive of it. -/
def IsErrName (full p : String) : Prop :=
  p = full ++ ErrorLogSubfix ∨ ∃ t : Time, p = full ++ "-error-" ++ t.formatCompact ++ ".log"

/-- No cross-write on a file system: every write held by a file of the info
stream was made for a record below `Error`, every write held by a file of
the error stream for a record at `Error` or above. -/
def Routed (full : String) (d : Disk) : Prop :=
  ∀ p cs, d.files p = some cs →
    (IsInfoName full p → ∀ c, c ∈ cs → c.origin < Error)
    ∧ (IsErrName full p → ∀ c, c ∈ cs → c.origin ≥ Error)

/-- Both handles are open on the live files of their streams, which exist. -/
def LiveHandles (full : String) (fileObj errFileObj : OsFile) (d : Disk) : Prop :=
  fileObj = ⟨full ++ InfoLogSubfix⟩ ∧ errFileObj = ⟨full ++ ErrorLogSubfix⟩
  ∧ (∃ cs, d.files (full ++ InfoLogSubfix) = some cs)
  ∧ (∃ cs, d.files (full ++ ErrorLogSubfix) = some cs)

/-- The live file name `splitFile` renames and reopens for a record of the
given level: `fullFileName+ErrorLogSubfix` at `Error` or above, else
`fullFileName+InfoLogSubfix`. -/
def liveName (full : String) (level : LogLevel) : String :=
  if level ≥ Error then full ++ ErrorLogSubfix else full ++ InfoLogSubfix

/-- The archive name `splitFile` renames the live file to at time `now`:
`fmt.Sprintf("%s-error-%s.log", ...)` at `Error` or above, else
`fmt.Sprintf("%s-%s.log", ...)`. -/
def archiveName (full : String) (level : LogLevel) (now : Time) : String :=
  if level ≥ Error then full ++ "-error-" ++ now.formatCompact ++ ".log"
  else full ++ "-" ++ now.formatCompact ++ ".log"

/-- The handle `writeLogBackground` selects for a record of the given level. -/
def selectedHandle (st : State) (level : LogLevel) : OsFile :=
  if level ≥ Error then st.f.errFileObj else st.f.fileObj

/-! ## Executions and sample inputs -/

/-- Executions of the asynchronous logger: any interleaving of producer
calls (`log`) and drain-loop iterations (`writeLogBackground`) that return. -/
inductive Run (pathJoin : String → String → String) : State → State → Prop
  | refl (st : State) : Run pathJoin st st
  | log {st0 st st1 : State} (level : LogLevel) (msg : String) (now : Time)
      (caller : Option Frame) :
      Run pathJoin st0 st → log st level msg now caller = .ok st1 → Run pathJoin st0 st1
  | drain {st0 st st1 : State} (now : Time) :
      Run pathJoin st0 st → writeLogBackground pathJoin st now = .ok st1 → Run pathJoin st0 st1

/-- A join of directory and base name with a slash, as a sample `pathJoin`. -/
def slashJoin (dir base : String) : String := dir ++ "/" ++ base

/-- A file system with no file and no denied path. -/
def emptyDisk : Disk := ⟨fun _ => none, fun _ => false⟩

/-- A sample clock reading. -/
def sampleTime : Time := ⟨2024, 3, 9, 8, 5, 1⟩

/-- A sample caller frame inside package `main`. -/
def sampleFrame : Frame := ⟨"main", "main", "/home/u/app/main.go", 7⟩

/-- A sample record at level `Info`. -/
def sampleMsg : logMsg := ⟨Info, "hello", "main.go", "main", "2024-03-09 08:05:01", 7⟩

/-- The state `NewFileLogger("warn", "logs", "app", 100)` returns on the empty
file system. -/
def sampleState : State :=
  { f := { Level := Warn, filePath := "logs", fileName := "app", maxFileSize := 100,
           fileObj := ⟨"logs/app.log"⟩, errFileObj := ⟨"logs/app-error.log"⟩,
           logChan := ⟨[], 50000⟩ },
    disk := { files := fun p => if p = "logs/app-error.log" then some []
                else if p = "logs/app.log" then some [] else none,
              denied := fun _ => false },
    drainTasks := 2 }

/-- The logger `NewFileLogger("trace", "logs", "app", 100)` on the empty file
system after `n` calls `Info("hello")` from the sample frame and no drain
iteration. -/
def pendingState (n : Nat) : State :=
  { sampleState with
    f := { sampleState.f with Level := Trace, logChan := ⟨List.replicate n sampleMsg, 50000⟩ } }

/-- A logger with minimum level `Trace` whose channel holds 50000 pending
records. -/
def fullState : State := pendingState 50000

/-- The sample state after one `Warn("z")` call from the sample frame. -/
def queuedState : State :=
  { sampleState with
    f := { sampleState.f with
      logChan := ⟨[⟨Warn, "z", "main.go", "main", "2024-03-09 08:05:01", 7⟩], 50000⟩ } }

/-- A logger with `maxFileSize` 5 whose live info file holds exactly 5 bytes
and whose live error file is empty. -/
def boundaryState : State :=
  { f := { Level := Warn, filePath := "logs", fileName := "app", maxFileSize := 5,
           fileObj := ⟨"logs/app.log"⟩, errFileObj := ⟨"logs/app-error.log"⟩,
           logChan := ⟨[], 50000⟩ },
    disk := { files := fun p => if p = "logs/app-error.log" then some []
                else if p = "logs/app.log" then some [⟨Warn, "12345"⟩] else none,
              denied := fun _ => false },
    drainTasks := 2 }

/-- The synchronous logger `NewFileLogger("warn", "logs", "app", 100)` returns on
the empty file system. -/
def syncSampleState : Common.State :=
  { f := { Level := Warn, filePath := "logs", fileName := "app", maxFileSize := 100,
           fileObj := ⟨"logs/app.log"⟩, errFileObj := ⟨"logs/app-error.log"⟩ },
    disk := sampleState.disk }

/-! ## Theorems -/

/-- C2: over the five named levels the two conversions are mutually inverse:
every named level has a name among TRACE, DEBUG, INFO, WARN, ERROR that
parses back to exactly that level, and every one of the five names parses
to a named level whose name it is. -/
theorem C2_level_name_roundtrip :
    (∀ L, L ∈ namedLevels → ∃ s, s ∈ levelNames ∧ parseLogLevel2String L = (s, none)
        ∧ parseString2LogLevel s = (L, none))
    ∧ (∀ s, s ∈ levelNames → ∃ L, L ∈ namedLevels ∧ parseString2LogLevel s = (L, none)
        ∧ parseLogLevel2String L = (s, none)) := by
  constructor
  · intro L hL
    simp only [namedLevels, List.mem_cons, List.mem_singleton, List.not_mem_nil, or_false] at hL
    rcases hL with h | h | h | h | h <;> subst h
    · exact ⟨"TRACE", by decide, by decide, by decide⟩
    · exact ⟨"DEBUG", by decide, by decide, by decide⟩
    · exact ⟨"INFO", by decide, by decide, by decide⟩
    · exact ⟨"WARN", by decide, by decide, by decide⟩
    · exact ⟨"ERROR", by decide, by decide, by decide⟩
  · intro s hs
    simp only [levelNames, List.mem_cons, List.mem_singleton, List.not_mem_nil, or_false] at hs
    rcases hs with h | h | h | h | h <;> subst h
    · exact ⟨Trace, by decide, by decide, by decide⟩
    · exact ⟨Debug, by decide, by decide, by decide⟩
    · exact ⟨Info, by decide, by decide, by decide⟩
    · exact ⟨Warn, by decide, by decide, by decide⟩
    · exact ⟨Error, by decide, by decide, by decide⟩

/-- Outside 1..5 the level has no name: the empty string and an error. -/
theorem parseLogLevel2String_other (l : Nat) (h : ¬ (1 ≤ l ∧ l ≤ 5)) :
    parseLogLevel2String l = ("", some errLevelString) := by
  unfold parseLogLevel2String Trace Debug Info Warn Error
  have h1 : l ≠ 1 := by omega
  have h2 : l ≠ 2 := by omega
  have h3 : l ≠ 3 := by omega
  have h4 : l ≠ 4 := by omega
  have h5 : l ≠ 5 := by omega
  simp [h1, h2, h3, h4, h5]

/-- C4: for every level value the padded label is exactly 5 characters (and
5 bytes) long and is a run of spaces followed by the level name (empty for
unnamed levels); the five named levels give TRACE, DEBUG, " INFO",
" WARN", ERROR. -/
theorem C4_level_label_width (level : LogLevel) :
    (levelLabel level).length = 5
    ∧ (levelLabel level).utf8ByteSize = 5
    ∧ (∃ k, levelLabel level
          = String.mk (List.replicate k ' ') ++ (parseLogLevel2String level).1)
    ∧ levelLabel Trace = "TRACE" ∧ levelLabel Debug = "DEBUG" ∧ levelLabel Info = " INFO"
    ∧ levelLabel Warn = " WARN" ∧ levelLabel Error = "ERROR" := by
  have named : levelLabel Trace = "TRACE" ∧ levelLabel Debug = "DEBUG"
      ∧ levelLabel Info = " INFO" ∧ levelLabel Warn = " WARN" ∧ levelLabel Error = "ERROR" := by
    decide
  by_cases h : 1 ≤ level ∧ level ≤ 5
  · obtain ⟨h1, h5⟩ := h
    interval_cases level
    · exact ⟨by decide, by decide, ⟨0, by decide⟩, named⟩
    · exact ⟨by decide, by decide, ⟨0, by decide⟩, named⟩
    · exact ⟨by decide, by decide, ⟨1, by decide⟩, named⟩
    · exact ⟨by decide, by decide, ⟨1, by decide⟩, named⟩
    · exact ⟨by decide, by decide, ⟨0, by decide⟩, named⟩
  · have e : levelLabel level = "     " := by
      unfold levelLabel
      rw [parseLogLevel2String_other level h]
      decide
    rw [e, parseLogLevel2String_other level h]
    exact ⟨by decide, by decide, ⟨5, by decide⟩, named⟩

/-- The two branches of `strings.ToUpper` agree with mapping `unicode.ToUpper`. -/
theorem ToUpper_data (s : String) : (ToUpper s).data = s.data.map unicodeToUpper := by
  unfold ToUpper
  split_ifs with h1 h2
  · simp only [List.all_eq_true, decide_eq_true_eq] at h1
    apply List.map_congr_left
    intro c hc
    have := h1 c hc
    simp only [unicodeToUpper]
    rw [if_pos (by omega)]
  · simp only [List.all_eq_true, decide_eq_true_eq] at h1
    simp only [List.any_eq_true, decide_eq_true_eq, not_exists, not_and] at h2
    conv_lhs => rw [← List.map_id s.data]
    apply List.map_congr_left
    intro c hc
    have a := h1 c hc
    have b := h2 c hc
    simp only [unicodeToUpper, asciiUpper, id]
    rw [if_pos (by omega), if_neg (fun hb => b hb.1 hb.2)]
  · rfl

/-- Away from the long s, `unicode.ToUpper` is ASCII upper-casing after reading the
dotless i as `i`. -/
theorem unicodeToUpper_eq (c : Char) (h : c.toNat ≠ 0x17F) :
    unicodeToUpper c = asciiUpper (undotChar c) := by
  unfold unicodeToUpper undotChar
  by_cases h1 : c.toNat ≤ 0x7F
  · rw [if_pos h1, if_neg (by omega)]
  · rw [if_neg h1]
    unfold caseRangesUpper
    by_cases h2 : c.toNat = 0x131
    · rw [if_pos h2, if_pos h2, h2]; decide
    · rw [if_neg h2, if_neg h, if_neg h2]
      unfold asciiUpper
      rw [if_neg (by omega)]

/-- The long s is sent to `S` by `unicode.ToUpper`, and kept by ASCII upper-casing. -/
theorem unicodeToUpper_longS (c : Char) (h : c.toNat = 0x17F) :
    unicodeToUpper c = 'S' ∧ asciiUpper (undotChar c) = Char.ofNat 0x17F := by
  have hc : c = Char.ofNat 0x17F := by
    apply Char.ext
    apply UInt32.ext
    exact h
  subst hc
  decide

/-- Against a word without `S` and without long s, both upper-casings decide alike. -/
theorem map_upper_iff (l t : List Char) (hS : 'S' ∉ t) (hs : Char.ofNat 0x17F ∉ t) :
    l.map unicodeToUpper = t ↔ l.map (fun c => asciiUpper (undotChar c)) = t := by
  induction l generalizing t with
  | nil => simp
  | cons c cs ih =>
    cases t with
    | nil => simp
    | cons x xs =>
      simp only [List.mem_cons, not_or] at hS hs
      simp only [List.map_cons, List.cons.injEq]
      rw [ih xs hS.2 hs.2]
      by_cases hc : c.toNat = 0x17F
      · obtain ⟨e1, e2⟩ := unicodeToUpper_longS c hc
        rw [e1, e2]
        constructor
        · intro h; exact absurd h.1 hS.1
        · intro h; exact absurd h.1 hs.1
      · rw [unicodeToUpper_eq c hc]

/-- The switch of `parseString2LogLevel` hits a level name exactly when the input, its
dotless i read as `i`, equals the name up to ASCII case. -/
theorem ToUpper_eq_name_iff (s name : String) (hn : name ∈ levelNames) :
    ToUpper s = name ↔ eqIgnoreAsciiCase (dotlessToI s) name = true := by
  have hname : 'S' ∉ name.data ∧ Char.ofNat 0x17F ∉ name.data
      ∧ name.data.map asciiUpper = name.data := by
    simp only [levelNames, List.mem_cons, List.mem_singleton, List.not_mem_nil, or_false] at hn
    rcases hn with h | h | h | h | h <;> subst h <;> decide
  obtain ⟨hS, hs, hup⟩ := hname
  rw [String.ext_iff, ToUpper_data, map_upper_iff _ _ hS hs]
  simp only [eqIgnoreAsciiCase, dotlessToI, decide_eq_true_eq, List.map_map, hup]
  rfl

/-- C3 (amended): `parseString2LogLevel s` returns a level without error exactly when
`s`, with every dotless i (U+0131) read as `i`, equals one of TRACE, DEBUG, INFO, WARN,
ERROR ignoring ASCII case, and the level is then the one so named; when `s` is no such
string the result is `UNKNOW` with an error. -/
theorem C3_parse_accepts_exactly (s : String) :
    (∀ L, parseString2LogLevel s = (L, none)
        ↔ ∃ name, (name, L) ∈ levelTable ∧ eqIgnoreAsciiCase (dotlessToI s) name = true)
    ∧ ((∀ name, name ∈ levelNames → eqIgnoreAsciiCase (dotlessToI s) name = false)
        → parseString2LogLevel s = (UNKNOW, some errParseLevel)) := by
  have k1 := ToUpper_eq_name_iff s "TRACE" (by decide)
  have k2 := ToUpper_eq_name_iff s "DEBUG" (by decide)
  have k3 := ToUpper_eq_name_iff s "INFO" (by decide)
  have k4 := ToUpper_eq_name_iff s "WARN" (by decide)
  have k5 := ToUpper_eq_name_iff s "ERROR" (by decide)
  constructor
  · intro L
    constructor
    · intro h
      unfold parseString2LogLevel at h
      simp only at h
      split_ifs at h with h1 h2 h3 h4 h5
      · exact ⟨"TRACE", by rw [← (Prod.mk.inj h).1]; decide, k1.mp h1⟩
      · exact ⟨"DEBUG", by rw [← (Prod.mk.inj h).1]; decide, k2.mp h2⟩
      · exact ⟨"INFO", by rw [← (Prod.mk.inj h).1]; decide, k3.mp h3⟩
      · exact ⟨"WARN", by rw [← (Prod.mk.inj h).1]; decide, k4.mp h4⟩
      · exact ⟨"ERROR", by rw [← (Prod.mk.inj h).1]; decide, k5.mp h5⟩
      · exact absurd (Prod.mk.inj h).2 (by simp)
    · rintro ⟨name, hmem, heq⟩
      simp only [levelTable, List.mem_cons, List.mem_singleton, List.not_mem_nil, or_false,
        Prod.mk.injEq] at hmem
      unfold parseString2LogLevel
      rcases hmem with ⟨hn, hl⟩ | ⟨hn, hl⟩ | ⟨hn, hl⟩ | ⟨hn, hl⟩ | ⟨hn, hl⟩ <;> subst hn <;> subst hl
      · rw [k1.mpr heq]; decide
      · rw [k2.mpr heq]; decide
      · rw [k3.mpr heq]; decide
      · rw [k4.mpr heq]; decide
      · rw [k5.mpr heq]; decide
  · intro h
    have n1 : ToUpper s ≠ "TRACE" := fun e => by
      have := h "TRACE" (by decide); rw [k1.mp e] at this; exact absurd this (by decide)
    have n2 : ToUpper s ≠ "DEBUG" := fun e => by
      have := h "DEBUG" (by decide); rw [k2.mp e] at this; exact absurd this (by decide)
    have n3 : ToUpper s ≠ "INFO" := fun e => by
      have := h "INFO" (by decide); rw [k3.mp e] at this; exact absurd this (by decide)
    have n4 : ToUpper s ≠ "WARN" := fun e => by
      have := h "WARN" (by decide); rw [k4.mp e] at this; exact absurd this (by decide)
    have n5 : ToUpper s ≠ "ERROR" := fun e => by
      have := h "ERROR" (by decide); rw [k5.mp e] at this; exact absurd this (by decide)
    unfold parseString2LogLevel
    simp only [n1, n2, n3, n4, n5, if_false]

/-- C3 (counterexample): the string "ınfo", whose first rune is the non-ASCII dotless i,
equals none of the five names ignoring ASCII case, and still parses to `Info` without
error. -/
theorem C3_dotless_i_parses_as_info :
    parseString2LogLevel "ınfo" = (Info, none)
    ∧ (∀ name, name ∈ levelNames → eqIgnoreAsciiCase "ınfo" name = false) := by
  refine ⟨by decide, ?_⟩
  intro name hn
  simp only [levelNames, List.mem_cons, List.mem_singleton, List.not_mem_nil, or_false] at hn
  rcases hn with h | h | h | h | h <;> subst h <;> decide

/-- The sample state is what `NewFileLogger` builds on the empty file system. -/
theorem sample_new : NewFileLogger slashJoin "warn" "logs" "app" 100 emptyDisk = .ok sampleState := by
  rfl

/-- A split always has at least one piece. -/
theorem splitRunes_ne_nil (sep : Char) (l : List Char) : splitRunes sep l ≠ [] := by
  cases l with
  | nil => simp [splitRunes]
  | cons c cs =>
    unfold splitRunes
    split_ifs
    · simp
    · split <;> simp

/-- A string with a dot splits into at least two pieces. -/
theorem splitRunes_two (a b : List Char) : 2 ≤ (splitRunes '.' (a ++ '.' :: b)).length := by
  induction a with
  | nil =>
    have := splitRunes_ne_nil '.' b
    simp only [List.nil_append, splitRunes, if_true, List.length_cons]
    have : 0 < (splitRunes '.' b).length := List.length_pos.mpr this
    omega
  | cons c cs ih =>
    simp only [List.cons_append]
    unfold splitRunes
    split_ifs
    · simp only [List.length_cons]; omega
    · split
      · next h => rw [h] at ih; simpa using ih
      · next h => rw [h] at ih; simp at ih

/-- For every outcome of `runtime.Caller`, `getInfo` returns: the index `[1]` is in range
because a qualified function name contains a dot. -/
theorem getInfo_ok (caller : Option Frame) : ∃ funcName fileName lineNo,
    getInfo caller = .ok (funcName, fileName, lineNo) := by
  cases caller with
  | none => exact ⟨"", "", 0, rfl⟩
  | some fr =>
    have h2 : 2 ≤ (stringsSplit fr.function '.').length := by
      unfold stringsSplit Frame.function
      rw [List.length_map]
      have : (fr.pkgPrefix ++ "." ++ fr.name).data = fr.pkgPrefix.data ++ '.' :: fr.name.data := by
        simp [String.data_append]
      rw [this]
      exact splitRunes_two _ _
    unfold getInfo
    simp only
    cases h : (stringsSplit fr.function '.').get? 1 with
    | none =>
      rw [List.get?_eq_none] at h
      omega
    | some funcName => exact ⟨funcName, _, _, rfl⟩

/-- A call below the minimum level returns the state it was given. -/
theorem log_below (st : State) (level : LogLevel) (msg : String) (now : Time)
    (caller : Option Frame) (h : level < st.f.Level) : log st level msg now caller = .ok st := by
  unfold log enable
  have : ¬ level ≥ st.f.Level := Nat.not_le.mpr h
  simp [this]

/-- A call at or above the minimum level builds the record and runs the non-blocking send. -/
theorem log_enabled (st : State) (level : LogLevel) (msg : String) (now : Time)
    (caller : Option Frame) (h : level ≥ st.f.Level) :
    ∃ funcName fileName lineNo, getInfo caller = .ok (funcName, fileName, lineNo)
      ∧ log st level msg now caller
        = .ok { st with
            f := { st.f with
              logChan := Chan.trySend st.f.logChan
                ⟨level, msg, fileName, funcName, now.formatStamp, lineNo⟩ } } := by
  obtain ⟨funcName, fileName, lineNo, hg⟩ := getInfo_ok caller
  refine ⟨funcName, fileName, lineNo, hg, ?_⟩
  unfold log enable
  simp [h, hg]

/-- C1 (amended): while the channel has room, `FileLogger.log` at level `L` with minimum
level `M` enqueues a record (at the tail, with that level and message, the files untouched)
if and only if `L >= M`, and for `L < M` it returns the state unchanged (queue and both
files); `ConsoleLogger.log` writes the record line (after the diagnostic of `getInfo` when
the caller frame is not resolved) if and only if `L >= M` and writes nothing for `L < M`. With `M = Warn` this gives nothing for Trace, Debug, Info and exactly one record
for Warn and for Error. -/
theorem C1_level_filter (st : State) (c : ConsoleLogger) (level : LogLevel) (msg : String)
    (now : Time) (caller : Option Frame) (stdout : List String)
    (hroom : st.f.logChan.buf.length < st.f.logChan.cap) :
    ((∃ st1 r, log st level msg now caller = .ok st1
          ∧ st1.f.logChan.buf = st.f.logChan.buf ++ [r] ∧ r.Level = level ∧ r.msg = msg
          ∧ st1.disk = st.disk)
        ↔ level ≥ st.f.Level)
    ∧ (level < st.f.Level → log st level msg now caller = .ok st)
    ∧ ((∃ funcName fileName lineNo, getInfo caller = .ok (funcName, fileName, lineNo)
          ∧ c.log level msg now caller stdout
            = .ok (stdout ++ getInfoPrinted caller
                ++ [formatLine now.formatStamp (levelLabel level) fileName funcName lineNo msg]))
        ↔ level ≥ c.Level)
    ∧ (level < c.Level → c.log level msg now caller stdout = .ok stdout)
    ∧ (st.f.Level = Warn →
        (∀ L, L ∈ [Trace, Debug, Info] → log st L msg now caller = .ok st)
        ∧ (∀ L, L ∈ [Warn, Error] → ∃ st1 r, log st L msg now caller = .ok st1
            ∧ st1.f.logChan.buf = st.f.logChan.buf ++ [r] ∧ r.Level = L ∧ r.msg = msg)) := by
  refine ⟨⟨?_, ?_⟩, log_below st level msg now caller, ⟨?_, ?_⟩, ?_, ?_⟩
  · rintro ⟨st1, r, h1, h2, -⟩
    by_contra hlt
    rw [log_below st level msg now caller (Nat.not_le.mp hlt)] at h1
    have e : st1 = st := (Except.ok.inj h1).symm
    rw [e] at h2
    have := congrArg List.length h2
    simp at this
  · intro h
    obtain ⟨funcName, fileName, lineNo, -, hl⟩ := log_enabled st level msg now caller h
    refine ⟨_, ⟨level, msg, fileName, funcName, now.formatStamp, lineNo⟩, hl, ?_, rfl, rfl, rfl⟩
    simp [Chan.trySend, hroom]
  · rintro ⟨funcName, fileName, lineNo, -, h1⟩
    by_contra hlt
    unfold ConsoleLogger.log ConsoleLogger.enable at h1
    simp only [ge_iff_le, hlt, decide_False, Bool.not_false, if_true] at h1
    have := congrArg List.length (Except.ok.inj h1)
    simp at this
  · intro h
    obtain ⟨funcName, fileName, lineNo, hg⟩ := getInfo_ok caller
    refine ⟨funcName, fileName, lineNo, hg, ?_⟩
    unfold ConsoleLogger.log ConsoleLogger.enable
    simp [h, hg]
  · intro h
    unfold ConsoleLogger.log ConsoleLogger.enable
    have : ¬ level ≥ c.Level := Nat.not_le.mpr h
    simp [this]
  · intro hM
    constructor
    · intro L hL
      apply log_below
      rw [hM]
      simp only [List.mem_cons, List.mem_singleton, List.not_mem_nil, or_false] at hL
      rcases hL with h | h | h <;> subst h <;> decide
    · intro L hL
      have hge : L ≥ st.f.Level := by
        rw [hM]
        simp only [List.mem_cons, List.mem_singleton, List.not_mem_nil, or_false] at hL
        rcases hL with h | h <;> subst h <;> decide
      obtain ⟨funcName, fileName, lineNo, -, hl⟩ := log_enabled st L msg now caller hge
      refine ⟨_, ⟨L, msg, fileName, funcName, now.formatStamp, lineNo⟩, hl, ?_, rfl, rfl⟩
      simp [Chan.trySend, hroom]

/-- C1 (witness): the sample logger (minimum `Warn`, empty channel) at level `Info`. -/
theorem C1_level_filter_witness :
    sampleState.f.logChan.buf.length < sampleState.f.logChan.cap
    ∧ (Info < sampleState.f.Level
        → log sampleState Info "y" sampleTime (some sampleFrame) = .ok sampleState) :=
  ⟨by decide, (C1_level_filter sampleState ⟨Warn⟩ Info "y" sampleTime (some sampleFrame) []
    (by decide)).2.1⟩

/-- Filling the channel: `n` accepted calls from the empty channel, for `n` up to the
capacity. -/
theorem run_fill (n : Nat) (hn : n ≤ 50000) :
    Run slashJoin (pendingState 0) (pendingState n) := by
  induction n with
  | zero => exact Run.refl _
  | succ k ih =>
    refine Run.log Info "hello" sampleTime (some sampleFrame) (ih (by omega)) ?_
    obtain ⟨funcName, fileName, lineNo, hg, hl⟩ :=
      log_enabled (pendingState k) Info "hello" sampleTime (some sampleFrame)
        (show Info ≥ Trace by decide)
    have hg2 : getInfo (some sampleFrame) = .ok ("main", "main.go", 7) := by decide
    rw [hg2] at hg
    have e := Except.ok.inj hg
    simp only [Prod.mk.injEq] at e
    obtain ⟨e1, e2, e3⟩ := e
    subst e1; subst e2; subst e3
    rw [hl]
    have hlen : (pendingState k).f.logChan.buf.length < (pendingState k).f.logChan.cap := by
      have : (pendingState k).f.logChan.buf.length = k := List.length_replicate k sampleMsg
      rw [this]
      exact hn
    unfold Chan.trySend
    rw [if_pos hlen]
    have hrec : (⟨Info, "hello", "main.go", "main", sampleTime.formatStamp, 7⟩ : logMsg)
        = sampleMsg := by decide
    rw [hrec]
    have hbuf : (pendingState k).f.logChan.buf ++ [sampleMsg]
        = List.replicate (k + 1) sampleMsg := by
      show List.replicate k sampleMsg ++ [sampleMsg] = List.replicate (k + 1) sampleMsg
      rw [List.replicate_succ']
    rw [hbuf]
    rfl

/-- C1 (counterexample): build the logger with minimum level `Trace` and make 50000 accepted
calls with no drain iteration in between, so that 50000 records are pending. A further call
at level `Error` passes the filter (`Error >= Trace`) and yet enqueues nothing: it returns
the very state it was given. -/
theorem C1_full_queue_drops_enabled_call :
    NewFileLogger slashJoin "trace" "logs" "app" 100 emptyDisk = .ok (pendingState 0)
    ∧ Run slashJoin (pendingState 0) fullState
    ∧ Error ≥ fullState.f.Level
    ∧ fullState.f.logChan.buf.length = 50000
    ∧ log fullState Error "boom" sampleTime (some sampleFrame) = .ok fullState := by
  have hlen : fullState.f.logChan.buf.length = 50000 := List.length_replicate 50000 sampleMsg
  refine ⟨rfl, run_fill 50000 (Nat.le_refl _), by decide, hlen, ?_⟩
  obtain ⟨funcName, fileName, lineNo, -, hl⟩ :=
    log_enabled fullState Error "boom" sampleTime (some sampleFrame) (by decide)
  rw [hl]
  have hfull : ¬ fullState.f.logChan.buf.length < fullState.f.logChan.cap := by
    rw [hlen]; exact Nat.lt_irrefl 50000
  unfold Chan.trySend
  rw [if_neg hfull]

/-- Opening a path that is not denied succeeds. -/
theorem OpenFile_total (d : Disk) (name : String) (h : d.denied name = false) :
    ∃ d1, OpenFile d name = .ok (⟨name⟩, d1) := by
  unfold OpenFile
  rw [h]
  simp only [Bool.false_eq_true, if_false]
  split
  · exact ⟨_, rfl⟩
  · exact ⟨_, rfl⟩

/-- A rename does not change which paths are denied. -/
theorem Rename_denied (d : Disk) (o n : String) : (Rename d o n).denied = d.denied := by
  unfold Rename
  split
  · rfl
  · split <;> rfl

section Progress

variable (pathJoin : String → String → String)

/-- The cut check of the asynchronous logger returns when the live paths can be opened. -/
theorem cutIfNeeded_total (st : State) (file : OsFile) (level : LogLevel) (now : Time)
    (hi : st.disk.denied (pathJoin st.f.filePath st.f.fileName ++ InfoLogSubfix) = false)
    (he : st.disk.denied (pathJoin st.f.filePath st.f.fileName ++ ErrorLogSubfix) = false) :
    ∃ st1, cutIfNeeded pathJoin st file level now = .ok st1 := by
  unfold cutIfNeeded
  split
  · unfold splitFile
    simp only
    split
    · obtain ⟨d1, h1⟩ := OpenFile_total
        (Rename st.disk (pathJoin st.f.filePath st.f.fileName ++ ErrorLogSubfix)
          (pathJoin st.f.filePath st.f.fileName ++ "-error-" ++ now.formatCompact ++ ".log"))
        (pathJoin st.f.filePath st.f.fileName ++ ErrorLogSubfix)
        (by rw [Rename_denied]; exact he)
      unfold initErrFile
      simp only [h1]
      exact ⟨_, rfl⟩
    · obtain ⟨d1, h1⟩ := OpenFile_total
        (Rename st.disk (pathJoin st.f.filePath st.f.fileName ++ InfoLogSubfix)
          (pathJoin st.f.filePath st.f.fileName ++ "-" ++ now.formatCompact ++ ".log"))
        (pathJoin st.f.filePath st.f.fileName ++ InfoLogSubfix)
        (by rw [Rename_denied]; exact hi)
      unfold initFile
      simp only [h1]
      exact ⟨_, rfl⟩
  · exact ⟨st, rfl⟩

/-- Writing a record returns when the live paths can be opened. -/
theorem writeRecord_total (st : State) (m : logMsg) (now : Time)
    (hi : st.disk.denied (pathJoin st.f.filePath st.f.fileName ++ InfoLogSubfix) = false)
    (he : st.disk.denied (pathJoin st.f.filePath st.f.fileName ++ ErrorLogSubfix) = false) :
    ∃ st1, writeRecord pathJoin st m now = .ok st1 := by
  unfold writeRecord
  simp only
  split
  · obtain ⟨st2, h2⟩ := cutIfNeeded_total pathJoin st st.f.errFileObj m.Level now hi he
    rw [h2]
    exact ⟨_, rfl⟩
  · obtain ⟨st2, h2⟩ := cutIfNeeded_total pathJoin st st.f.fileObj m.Level now hi he
    rw [h2]
    exact ⟨_, rfl⟩

/-- A drain iteration returns when the live paths can be opened. -/
theorem writeLogBackground_total (st : State) (now : Time)
    (hi : st.disk.denied (pathJoin st.f.filePath st.f.fileName ++ InfoLogSubfix) = false)
    (he : st.disk.denied (pathJoin st.f.filePath st.f.fileName ++ ErrorLogSubfix) = false) :
    ∃ st1, writeLogBackground pathJoin st now = .ok st1 := by
  unfold writeLogBackground
  split
  · exact writeRecord_total pathJoin _ _ now hi he
  · exact ⟨st, rfl⟩

/-- The cut check of the synchronous logger returns when the live paths can be opened. -/
theorem sync_cutIfNeeded_total (st : Common.State) (file : OsFile) (level : LogLevel)
    (now : Time)
    (hi : st.disk.denied (pathJoin st.f.filePath st.f.fileName ++ InfoLogSubfix) = false)
    (he : st.disk.denied (pathJoin st.f.filePath st.f.fileName ++ ErrorLogSubfix) = false) :
    ∃ st1, Common.cutIfNeeded pathJoin st file level now = .ok st1 := by
  unfold Common.cutIfNeeded
  split
  · unfold Common.splitFile
    simp only
    split
    · obtain ⟨d1, h1⟩ := OpenFile_total
        (Rename st.disk (pathJoin st.f.filePath st.f.fileName ++ ErrorLogSubfix)
          (pathJoin st.f.filePath st.f.fileName ++ "-error-" ++ now.formatCompact ++ ".log"))
        (pathJoin st.f.filePath st.f.fileName ++ ErrorLogSubfix)
        (by rw [Rename_denied]; exact he)
      unfold Common.initErrFile
      simp only [h1]
      exact ⟨_, rfl⟩
    · obtain ⟨d1, h1⟩ := OpenFile_total
        (Rename st.disk (pathJoin st.f.filePath st.f.fileName ++ InfoLogSubfix)
          (pathJoin st.f.filePath st.f.fileName ++ "-" ++ now.formatCompact ++ ".log"))
        (pathJoin st.f.filePath st.f.fileName ++ InfoLogSubfix)
        (by rw [Rename_denied]; exact hi)
      unfold Common.initFile
      simp only [h1]
      exact ⟨_, rfl⟩
  · exact ⟨st, rfl⟩

/-- A synchronous call returns when the live paths can be opened. -/
theorem sync_log_total (st : Common.State) (level : LogLevel) (msg : String) (now : Time)
    (caller : Option Frame) (cutTime : Time)
    (hi : st.disk.denied (pathJoin st.f.filePath st.f.fileName ++ InfoLogSubfix) = false)
    (he : st.disk.denied (pathJoin st.f.filePath st.f.fileName ++ ErrorLogSubfix) = false) :
    ∃ st1, Common.log pathJoin st level msg now caller cutTime = .ok st1 := by
  obtain ⟨funcName, fileName, lineNo, hg⟩ := getInfo_ok caller
  unfold Common.log
  split
  · exact ⟨st, rfl⟩
  · simp only [hg]
    split
    · obtain ⟨st2, h2⟩ := sync_cutIfNeeded_total pathJoin st st.f.errFileObj level cutTime hi he
      rw [h2]
      exact ⟨_, rfl⟩
    · obtain ⟨st2, h2⟩ := sync_cutIfNeeded_total pathJoin st st.f.fileObj level cutTime hi he
      rw [h2]
      exact ⟨_, rfl⟩

end Progress

section AsyncFacts

variable (pathJoin : String → String → String)

/-- The function `initFile` changes only the info handle, the disk and the task count. -/
theorem initFile_fields (st st1 : State) (e : Option String)
    (h : initFile pathJoin st = (st1, e)) :
    st1.f.Level = st.f.Level ∧ st1.f.filePath = st.f.filePath ∧ st1.f.fileName = st.f.fileName
    ∧ st1.f.maxFileSize = st.f.maxFileSize ∧ st1.f.logChan = st.f.logChan
    ∧ st1.f.errFileObj = st.f.errFileObj := by
  unfold initFile at h
  simp only at h
  split at h
  · have e1 := (Prod.mk.inj h).1
    subst e1
    exact ⟨rfl, rfl, rfl, rfl, rfl, rfl⟩
  · have e1 := (Prod.mk.inj h).1
    subst e1
    exact ⟨rfl, rfl, rfl, rfl, rfl, rfl⟩

/-- The function `initErrFile` changes only the error handle, the disk and the task count. -/
theorem initErrFile_fields (st st1 : State) (e : Option String)
    (h : initErrFile pathJoin st = (st1, e)) :
    st1.f.Level = st.f.Level ∧ st1.f.filePath = st.f.filePath ∧ st1.f.fileName = st.f.fileName
    ∧ st1.f.maxFileSize = st.f.maxFileSize ∧ st1.f.logChan = st.f.logChan
    ∧ st1.f.fileObj = st.f.fileObj := by
  unfold initErrFile at h
  simp only at h
  split at h
  · have e1 := (Prod.mk.inj h).1
    subst e1
    exact ⟨rfl, rfl, rfl, rfl, rfl, rfl⟩
  · have e1 := (Prod.mk.inj h).1
    subst e1
    exact ⟨rfl, rfl, rfl, rfl, rfl, rfl⟩

/-- A logger built by `NewFileLogger` has the given configuration and an empty channel of
capacity 50000. -/
theorem NewFileLogger_fields (levelStr fp fn : String) (maxSize : Int) (disk : Disk) (st : State)
    (h : NewFileLogger pathJoin levelStr fp fn maxSize disk = .ok st) :
    st.f.filePath = fp ∧ st.f.fileName = fn ∧ st.f.maxFileSize = maxSize
    ∧ st.f.logChan = ⟨[], 50000⟩ := by
  unfold NewFileLogger at h
  split at h
  · exact absurd h (by simp)
  · simp only at h
    split at h
    · exact absurd h (by simp)
    · next st1 h1 =>
      split at h
      · exact absurd h (by simp)
      · next st2 h2 =>
        have e := Except.ok.inj h
        subst e
        have a := initFile_fields pathJoin _ _ _ h1
        have b := initErrFile_fields pathJoin _ _ _ h2
        simp only at a b
        obtain ⟨-, a2, a3, a4, a5, -⟩ := a
        obtain ⟨-, b2, b3, b4, b5, -⟩ := b
        exact ⟨b2.trans a2, b3.trans a3, b4.trans a4, b5.trans a5⟩

/-- The function `splitFile` keeps the configuration and the channel. -/
theorem splitFile_fields (st st1 : State) (file : OsFile) (level : LogLevel) (now : Time)
    (h : splitFile pathJoin st file level now = .ok st1) :
    st1.f.Level = st.f.Level ∧ st1.f.filePath = st.f.filePath ∧ st1.f.fileName = st.f.fileName
    ∧ st1.f.maxFileSize = st.f.maxFileSize ∧ st1.f.logChan = st.f.logChan := by
  unfold splitFile at h
  simp only at h
  split at h
  · split at h
    · exact absurd h (by simp)
    · next st2 h2 =>
      have e := Except.ok.inj h
      subst e
      have b := initErrFile_fields pathJoin _ _ _ h2
      exact ⟨b.1, b.2.1, b.2.2.1, b.2.2.2.1, b.2.2.2.2.1⟩
  · split at h
    · exact absurd h (by simp)
    · next st2 h2 =>
      have e := Except.ok.inj h
      subst e
      have b := initFile_fields pathJoin _ _ _ h2
      exact ⟨b.1, b.2.1, b.2.2.1, b.2.2.2.1, b.2.2.2.2.1⟩

/-- The cut check keeps the configuration and the channel. -/
theorem cutIfNeeded_fields (st st1 : State) (file : OsFile) (level : LogLevel) (now : Time)
    (h : cutIfNeeded pathJoin st file level now = .ok st1) :
    st1.f.Level = st.f.Level ∧ st1.f.filePath = st.f.filePath ∧ st1.f.fileName = st.f.fileName
    ∧ st1.f.maxFileSize = st.f.maxFileSize ∧ st1.f.logChan = st.f.logChan := by
  unfold cutIfNeeded at h
  split at h
  · exact splitFile_fields pathJoin st st1 file level now h
  · have e := Except.ok.inj h
    subst e
    exact ⟨rfl, rfl, rfl, rfl, rfl⟩

/-- Writing a record keeps the configuration and the channel. -/
theorem writeRecord_fields (st st1 : State) (m : logMsg) (now : Time)
    (h : writeRecord pathJoin st m now = .ok st1) :
    st1.f.Level = st.f.Level ∧ st1.f.filePath = st.f.filePath ∧ st1.f.fileName = st.f.fileName
    ∧ st1.f.maxFileSize = st.f.maxFileSize ∧ st1.f.logChan = st.f.logChan := by
  unfold writeRecord at h
  simp only at h
  split at h
  · split at h
    · exact absurd h (by simp)
    · next st2 h2 =>
      have e := Except.ok.inj h
      subst e
      exact cutIfNeeded_fields pathJoin st st2 _ _ now h2
  · split at h
    · exact absurd h (by simp)
    · next st2 h2 =>
      have e := Except.ok.inj h
      subst e
      exact cutIfNeeded_fields pathJoin st st2 _ _ now h2

/-- A drain iteration keeps the configuration and removes at most the oldest record. -/
theorem writeLogBackground_fields (st st1 : State) (now : Time)
    (h : writeLogBackground pathJoin st now = .ok st1) :
    st1.f.Level = st.f.Level ∧ st1.f.filePath = st.f.filePath ∧ st1.f.fileName = st.f.fileName
    ∧ st1.f.maxFileSize = st.f.maxFileSize ∧ st1.f.logChan.cap = st.f.logChan.cap
    ∧ st1.f.logChan.buf = st.f.logChan.buf.tail := by
  unfold writeLogBackground at h
  split at h
  · next m rest hr =>
    have w := writeRecord_fields pathJoin _ st1 m now h
    simp only at w
    unfold Chan.tryRecv at hr
    split at hr
    · exact absurd hr (by simp)
    · next x xs hb =>
      have e := Option.some.inj hr
      simp only [Prod.mk.injEq] at e
      obtain ⟨-, e2⟩ := e
      subst e2
      rw [hb]
      exact ⟨w.1, w.2.1, w.2.2.1, w.2.2.2.1, by rw [w.2.2.2.2], by rw [w.2.2.2.2]; rfl⟩
  · next hr =>
    have e := Except.ok.inj h
    subst e
    unfold Chan.tryRecv at hr
    split at hr
    · next hb => rw [hb]; exact ⟨rfl, rfl, rfl, rfl, rfl, rfl⟩
    · exact absurd hr (by simp)

/-- A log call touches nothing but the channel buffer, which stays within capacity. -/
theorem log_fields (st st1 : State) (level : LogLevel) (msg : String) (now : Time)
    (caller : Option Frame) (h : log st level msg now caller = .ok st1) :
    st1.f.Level = st.f.Level ∧ st1.f.filePath = st.f.filePath ∧ st1.f.fileName = st.f.fileName
    ∧ st1.f.maxFileSize = st.f.maxFileSize ∧ st1.f.fileObj = st.f.fileObj
    ∧ st1.f.errFileObj = st.f.errFileObj ∧ st1.disk = st.disk
    ∧ st1.drainTasks = st.drainTasks
    ∧ st1.f.logChan.cap = st.f.logChan.cap
    ∧ (st.f.logChan.buf.length ≤ st.f.logChan.cap
        → st1.f.logChan.buf.length ≤ st.f.logChan.cap) := by
  by_cases hl : level ≥ st.f.Level
  · obtain ⟨funcName, fileName, lineNo, -, e⟩ := log_enabled st level msg now caller hl
    rw [e] at h
    have e1 := Except.ok.inj h
    subst e1
    refine ⟨rfl, rfl, rfl, rfl, rfl, rfl, rfl, rfl, ?_, ?_⟩
    · simp only [Chan.trySend]; split <;> rfl
    · intro hb
      simp only [Chan.trySend]
      split
      · simp only [List.length_append, List.length_singleton]; omega
      · exact hb
  · rw [log_below st level msg now caller (Nat.not_le.mp hl)] at h
    have e1 := Except.ok.inj h
    subst e1
    exact ⟨rfl, rfl, rfl, rfl, rfl, rfl, rfl, rfl, rfl, fun hb => hb⟩

/-- Capacity and bound of the channel are invariant along every execution. -/
theorem run_queue_bound (st0 st : State) (h : Run pathJoin st0 st)
    (h0 : st0.f.logChan.cap = 50000 ∧ st0.f.logChan.buf.length ≤ 50000) :
    st.f.logChan.cap = 50000 ∧ st.f.logChan.buf.length ≤ 50000 := by
  induction h with
  | refl => exact h0
  | log level msg now caller _ hstep ih =>
    have l := log_fields _ _ level msg now caller hstep
    obtain ⟨-, -, -, -, -, -, -, -, l1, l2⟩ := l
    rw [ih.1] at l1 l2
    exact ⟨l1, l2 ih.2⟩
  | drain now _ hstep ih =>
    have w := writeLogBackground_fields pathJoin _ _ now hstep
    obtain ⟨-, -, -, -, w1, w2⟩ := w
    refine ⟨w1.trans ih.1, ?_⟩
    rw [w2, List.length_tail]
    omega

/-- C8: in every state reached from a successful `NewFileLogger` by log calls and drain
iterations the channel has capacity 50000 and at most 50000 pending records; a log call
that passes the level filter appends its record at the tail when fewer than 50000 are
pending; with exactly 50000 pending a log call returns the state unchanged (the new record
is dropped, nothing is displaced); a drain iteration takes the oldest pending record and
leaves the others pending, in order, and it returns whenever the two live paths can be
opened. -/
theorem C8_queue_bounded_fifo (levelStr fp fn : String) (maxSize : Int) (disk : Disk) (st0 st : State)
    (hnew : NewFileLogger pathJoin levelStr fp fn maxSize disk = .ok st0)
    (hrun : Run pathJoin st0 st) :
    st.f.logChan.cap = 50000
    ∧ st.f.logChan.buf.length ≤ 50000
    ∧ (∀ level msg now caller, level ≥ st.f.Level → st.f.logChan.buf.length < 50000 →
        ∃ st1 r, log st level msg now caller = .ok st1
          ∧ st1.f.logChan.buf = st.f.logChan.buf ++ [r] ∧ r.Level = level ∧ r.msg = msg)
    ∧ (∀ level msg now caller, st.f.logChan.buf.length = 50000 →
        log st level msg now caller = .ok st)
    ∧ (∀ m rest now, st.f.logChan.buf = m :: rest →
        writeLogBackground pathJoin st now
          = writeRecord pathJoin { st with f := { st.f with logChan := ⟨rest, 50000⟩ } } m now
        ∧ ∀ st1, writeLogBackground pathJoin st now = .ok st1 → st1.f.logChan.buf = rest)
    ∧ (∀ now, st.disk.denied (pathJoin st.f.filePath st.f.fileName ++ InfoLogSubfix) = false →
        st.disk.denied (pathJoin st.f.filePath st.f.fileName ++ ErrorLogSubfix) = false →
        ∃ st1, writeLogBackground pathJoin st now = .ok st1) := by
  have h0 := NewFileLogger_fields pathJoin levelStr fp fn maxSize disk st0 hnew
  have hb := run_queue_bound pathJoin st0 st hrun (by rw [h0.2.2.2]; exact ⟨rfl, by simp⟩)
  refine ⟨hb.1, hb.2, ?_, ?_, ?_, fun now => writeLogBackground_total pathJoin st now⟩
  · intro level msg now caller hl hroom
    obtain ⟨funcName, fileName, lineNo, -, e⟩ := log_enabled st level msg now caller hl
    refine ⟨_, ⟨level, msg, fileName, funcName, now.formatStamp, lineNo⟩, e, ?_, rfl, rfl⟩
    have : st.f.logChan.buf.length < st.f.logChan.cap := by rw [hb.1]; exact hroom
    simp [Chan.trySend, this]
  · intro level msg now caller hfull
    by_cases hl : level ≥ st.f.Level
    · obtain ⟨funcName, fileName, lineNo, -, e⟩ := log_enabled st level msg now caller hl
      rw [e]
      have : ¬ st.f.logChan.buf.length < st.f.logChan.cap := by rw [hb.1, hfull]; omega
      unfold Chan.trySend
      rw [if_neg this]
    · exact log_below st level msg now caller (Nat.not_le.mp hl)
  · intro m rest now hq
    have e : writeLogBackground pathJoin st now
        = writeRecord pathJoin { st with f := { st.f with logChan := ⟨rest, 50000⟩ } } m now := by
      unfold writeLogBackground Chan.tryRecv
      rw [hq, hb.1]
    refine ⟨e, ?_⟩
    intro st1 h1
    have w := writeLogBackground_fields pathJoin st st1 now h1
    rw [w.2.2.2.2.2, hq]
    rfl

/-- C8 (witness): the sample logger after one `Warn("z")` call. -/
theorem C8_queue_bounded_fifo_witness :
    NewFileLogger slashJoin "warn" "logs" "app" 100 emptyDisk = .ok sampleState
    ∧ Run slashJoin sampleState queuedState
    ∧ queuedState.f.logChan.buf.length ≤ 50000 :=
  have hnew : NewFileLogger slashJoin "warn" "logs" "app" 100 emptyDisk = .ok sampleState := rfl
  have hrun : Run slashJoin sampleState queuedState :=
    Run.log Warn "z" sampleTime (some sampleFrame) (Run.refl sampleState) rfl
  ⟨hnew, hrun,
    (C8_queue_bounded_fifo slashJoin "warn" "logs" "app" 100 emptyDisk sampleState queuedState hnew hrun).2.1⟩

end AsyncFacts

/-- C9 (the code at the failing input): counting the executed
`go f.writeLogBackground()` statements, a successful `NewFileLogger` leaves the count at 2
(one from `initFile`, one from `initErrFile`), and with `maxSize = 0` one logged and drained
record, whose write rotates the info file, raises it to 3. -/
theorem C9_drain_tasks_two_then_three :
    (NewFileLogger slashJoin "warn" "logs" "app" 100 emptyDisk).map (fun st => st.drainTasks)
      = .ok 2
    ∧ ((NewFileLogger slashJoin "warn" "logs" "app" 0 emptyDisk).bind (fun st0 =>
          (log st0 Warn "z" sampleTime (some sampleFrame)).bind (fun st1 =>
            writeLogBackground slashJoin st1 sampleTime))).map (fun st => st.drainTasks)
      = .ok 3 := by
  constructor <;> rfl

/-- C10 (the code at the failing input): for the frame of function
`github.com/cuilan/glog.Demo`, `getInfo` returns `com/cuilan/glog` as the function name,
the second piece of the split at dots, not `Demo`; for `main.main` it returns `main`. -/
theorem C10_getInfo_dotted_import_path :
    getInfo (some ⟨"github.com/cuilan/glog", "Demo", "/home/u/glog/demo.go", 12⟩)
      = .ok ("com/cuilan/glog", "demo.go", 12)
    ∧ (⟨"github.com/cuilan/glog", "Demo", "/home/u/glog/demo.go", 12⟩ : Frame).function
      = "github.com/cuilan/glog.Demo"
    ∧ getInfo (some ⟨"main", "main", "/home/u/app/main.go", 7⟩) = .ok ("main", "main.go", 7) := by
  decide

/-- Reading a number never lengthens the format. -/
theorem parsenum_length (s : List Char) (num : Nat) (isnum : Bool) :
    (parsenum s num isnum).2.2.length ≤ s.length := by
  induction s generalizing num isnum with
  | nil => simp [parsenum]
  | cons c cs ih =>
    unfold parsenum
    split_ifs
    · simp
    · exact Nat.le_succ_of_le (ih _ _)
    · simp

/-- Dropping a run of characters never lengthens a list. -/
theorem dropWhile_length {α : Type} (p : α → Bool) (l : List α) :
    (l.dropWhile p).length ≤ l.length := by
  induction l with
  | nil => simp
  | cons x xs ih =>
    rw [List.dropWhile_cons]
    split
    · exact Nat.le_succ_of_le ih
    · exact Nat.le_refl _

/-- Reading a bracketed index never lengthens the format. -/
theorem parseArgNumber_length (format : List Char) :
    (parseArgNumber format).2.length ≤ format.length := by
  unfold parseArgNumber
  split_ifs
  · simp
  · simp only
    split
    · simp
    · next x rest h =>
      have h1 := dropWhile_length (fun c => decide (c ≠ ']')) (format.drop 1)
      rw [h] at h1
      simp only [List.length_cons, List.length_drop] at h1
      split_ifs <;> simp only <;> omega

/-- The optional argument index never lengthens the format. -/
theorem argNumber_length (format : List Char) (good : Bool) :
    (argNumber format good).1.length ≤ format.length := by
  unfold argNumber
  split
  · exact parseArgNumber_length _
  · exact Nat.le_refl _

/-- The width part never lengthens the format. -/
theorem widthStage_length (a1 : List Char × Bool × Bool) :
    (widthStage a1).2.1.length ≤ a1.1.length := by
  unfold widthStage
  split
  · next t h => rw [h]; simp
  · exact parsenum_length _ _ _

/-- The precision part never lengthens the format. -/
theorem precStage_length (w : List Char × List Char × Bool × Bool) :
    (precStage w).2.1.length ≤ w.2.1.length := by
  unfold precStage
  split
  · next c rest h =>
    rw [h]
    have h1 := argNumber_length (c :: rest) (if w.2.2.1 then false else w.2.2.2)
    simp only
    split
    · next t2 h2 => rw [h2] at h1; simp only [List.length_cons] at h1 ⊢; omega
    · have h3 := parsenum_length
        (argNumber (c :: rest) (if w.2.2.1 then false else w.2.2.2)).1 0 false
      simp only [List.length_cons] at h1 ⊢; omega
  · exact Nat.le_refl _

/-- The last argument index never lengthens the format. -/
theorem indexStage_length (p : List Char × List Char × Bool × Bool) :
    (indexStage p).1.length ≤ p.2.1.length := by
  unfold indexStage
  split_ifs
  · exact Nat.le_refl _
  · exact argNumber_length _ _

/-- A verb consumes at least one character of the format. -/
theorem verbStep_length (s0 out next : List Char) (h : verbStep s0 = (out, some next)) :
    next.length < s0.length := by
  have h1 := dropWhile_length isFlag s0
  have h2 := argNumber_length (s0.dropWhile isFlag) true
  have h3 := widthStage_length (argNumber (s0.dropWhile isFlag) true)
  have h4 := precStage_length (widthStage (argNumber (s0.dropWhile isFlag) true))
  have h5 := indexStage_length (precStage (widthStage (argNumber (s0.dropWhile isFlag) true)))
  unfold verbStep at h
  simp only at h
  split at h
  · simp at h
  · next verb t ht =>
    rw [ht] at h5
    simp only [List.length_cons] at h5
    have e : next = t := by
      split_ifs at h <;> simp only [Prod.mk.injEq, Option.some.injEq] at h <;> exact h.2.symm
    rw [e]
    omega

/-- The bound of the format loop is never reached: every bound above the length of the
format gives the result of the bound used by `doPrintf`. -/
theorem doPrintfLoop_fuel (fuel : Nat) (format : List Char) (h : format.length < fuel) :
    doPrintfLoop fuel format = doPrintfLoop (format.length + 1) format := by
  induction fuel using Nat.strong_induction_on generalizing format with
  | _ fuel ih =>
    cases fuel with
    | zero => exact absurd h (Nat.not_lt_zero _)
    | succ k =>
      unfold doPrintfLoop
      have hd := dropWhile_length (fun c => decide (c ≠ '%')) format
      split
      · rfl
      · next x rest hr =>
        rw [hr] at hd
        simp only [List.length_cons] at hd
        cases hv : verbStep rest with
        | mk out nxt =>
          cases nxt with
          | none => rfl
          | some next =>
            have hl := verbStep_length rest out next hv
            simp only
            rw [ih k (Nat.lt_succ_self k) next (by omega),
              ih format.length (by omega) next (by omega)]

/-- A format without a percent sign is written as it is. -/
theorem doPrintf_no_percent (format : String) (h : '%' ∉ format.data) :
    doPrintf format = format := by
  unfold doPrintf doPrintfLoop
  have hd : format.data.dropWhile (fun c => decide (c ≠ '%')) = [] := by
    rw [List.dropWhile_eq_nil_iff]
    intro c hc
    simp only [ne_eq, decide_not, Bool.not_eq_true', decide_eq_false_iff_not]
    intro e; rw [e] at hc; exact h hc
  have ht : format.data.takeWhile (fun c => decide (c ≠ '%')) = format.data := by
    rw [List.takeWhile_eq_self_iff]
    intro c hc
    simp only [ne_eq, decide_not, Bool.not_eq_true', decide_eq_false_iff_not]
    intro e; rw [e] at hc; exact h hc
  rw [String.length]
  simp only [hd, ht]

/-- C6 (the code at the failing input): the sample logger is called with the message
`100%` at level `Warn` and one drain iteration runs. The line built for the record ends in
`100%` and a newline, but the bytes appended to the info file end in `100%!`, a newline and
`(MISSING)`: the line was used as a format. The synchronous logger, given the same call,
appends exactly the line. -/
theorem C6_percent_message_is_reformatted :
    ((log sampleState Warn "100%" sampleTime (some sampleFrame)).bind (fun st =>
        writeLogBackground slashJoin st sampleTime)).map (fun st => st.disk.files "logs/app.log")
      = .ok (some [⟨Warn, "[2024-03-09 08:05:01] [ WARN] [main.go:main:7] - 100%!\n(MISSING)"⟩])
    ∧ formatLine "2024-03-09 08:05:01" (levelLabel Warn) "main.go" "main" 7 "100%"
      = "[2024-03-09 08:05:01] [ WARN] [main.go:main:7] - 100%\n"
    ∧ (Common.log slashJoin syncSampleState Warn "100%" sampleTime (some sampleFrame)
          sampleTime).map (fun st => st.disk.files "logs/app.log")
      = .ok (some [⟨Warn, "[2024-03-09 08:05:01] [ WARN] [main.go:main:7] - 100%\n"⟩]) := by
  decide

/-- The compact timestamp has exactly 14 characters. -/
theorem formatCompact_length (t : Time) : t.formatCompact.length = 14 := by
  simp [Time.formatCompact, fourDigits, twoDigits, String.length]

/-- Length of the live info file name. -/
theorem infoLive_length (full : String) : (full ++ InfoLogSubfix).length = full.length + 4 := by
  rw [String.length_append]; rfl

/-- Length of the live error file name. -/
theorem errLive_length (full : String) : (full ++ ErrorLogSubfix).length = full.length + 10 := by
  rw [String.length_append]; rfl

/-- Length of an info archive name. -/
theorem infoArchive_length (full : String) (t : Time) :
    (full ++ "-" ++ t.formatCompact ++ ".log").length = full.length + 19 := by
  simp only [String.length_append, formatCompact_length]
  have a : "-".length = 1 := rfl
  have b : ".log".length = 4 := rfl
  omega

/-- Length of an error archive name. -/
theorem errArchive_length (full : String) (t : Time) :
    (full ++ "-error-" ++ t.formatCompact ++ ".log").length = full.length + 25 := by
  simp only [String.length_append, formatCompact_length]
  have a : "-error-".length = 7 := rfl
  have b : ".log".length = 4 := rfl
  omega

/-- Names of the info stream have one of two lengths. -/
theorem IsInfoName_length (full p : String) (h : IsInfoName full p) :
    p.length = full.length + 4 ∨ p.length = full.length + 19 := by
  rcases h with h | ⟨t, h⟩
  · left; rw [h]; exact infoLive_length full
  · right; rw [h]; exact infoArchive_length full t

/-- Names of the error stream have one of two lengths, neither an info length. -/
theorem IsErrName_length (full p : String) (h : IsErrName full p) :
    p.length = full.length + 10 ∨ p.length = full.length + 25 := by
  rcases h with h | ⟨t, h⟩
  · left; rw [h]; exact errLive_length full
  · right; rw [h]; exact errArchive_length full t

/-- Effect of a successful open: the handle is on the given name, the file exists afterwards,
every content is an old content or the new empty file, other names are untouched. -/
theorem OpenFile_ok (d d1 : Disk) (name : String) (h : OsFile)
    (e : OpenFile d name = .ok (h, d1)) :
    h = ⟨name⟩ ∧ (∃ cs, d1.files name = some cs)
    ∧ (∀ p cs, d1.files p = some cs → d.files p = some cs ∨ (p = name ∧ cs = []))
    ∧ (∀ p, p ≠ name → d1.files p = d.files p)
    ∧ ((∃ cs, d.files name = some cs) → d1 = d) := by
  unfold OpenFile at e
  split at e
  · exact absurd e (by simp)
  · split at e
    · next cs0 hc =>
      have e1 := Except.ok.inj e
      simp only [Prod.mk.injEq] at e1
      obtain ⟨e2, e3⟩ := e1
      subst e2; subst e3
      exact ⟨rfl, ⟨cs0, hc⟩, fun p cs hp => Or.inl hp, fun p _ => rfl, fun _ => rfl⟩
    · next hc =>
      have e1 := Except.ok.inj e
      simp only [Prod.mk.injEq] at e1
      obtain ⟨e2, e3⟩ := e1
      subst e2; subst e3
      refine ⟨rfl, ⟨[], by simp⟩, ?_, ?_, ?_⟩
      · intro p cs hp
        simp only at hp
        split at hp
        · next hpn => right; exact ⟨hpn, (Option.some.inj hp).symm⟩
        · left; exact hp
      · intro p hp; simp [hp]
      · rintro ⟨cs, hcs⟩; rw [hc] at hcs; exact absurd hcs (by simp)

/-- After a rename every content was already there, or was moved from the old path. -/
theorem Rename_files (d : Disk) (o n p : String) (cs : List Chunk)
    (h : (Rename d o n).files p = some cs) :
    d.files p = some cs ∨ (p = n ∧ d.files o = some cs) := by
  unfold Rename at h
  split at h
  · left; exact h
  · next content hc =>
    split at h
    · left; exact h
    · simp only at h
      split at h
      · next hpn => right; rw [hc]; exact ⟨hpn, h⟩
      · split at h
        · exact absurd h (by simp)
        · left; exact h

/-- A rename leaves every third path alone. -/
theorem Rename_other (d : Disk) (o n p : String) (h1 : p ≠ o) (h2 : p ≠ n) :
    (Rename d o n).files p = d.files p := by
  unfold Rename
  split
  · rfl
  · split
    · rfl
    · simp [h1, h2]

/-- After a write every content is old, or the old content of the handle plus the chunk. -/
theorem Write_files (d : Disk) (file : OsFile) (c : Chunk) (p : String) (cs : List Chunk)
    (h : (Write d file c).files p = some cs) :
    (p ≠ file.path ∧ d.files p = some cs)
    ∨ (p = file.path ∧ ∃ old, d.files p = some old ∧ cs = old ++ [c]) := by
  unfold Write at h
  split at h
  · next hn =>
    by_cases hp : p = file.path
    · rw [hp, hn] at h; exact absurd h (by simp)
    · left; exact ⟨hp, h⟩
  · next content hc =>
    simp only at h
    split at h
    · next hp => right; refine ⟨hp, content, by rw [hp]; exact hc, (Option.some.inj h).symm⟩
    · next hp => left; exact ⟨hp, h⟩

/-- A write leaves every other path alone. -/
theorem Write_other (d : Disk) (file : OsFile) (c : Chunk) (p : String) (h : p ≠ file.path) :
    (Write d file c).files p = d.files p := by
  unfold Write
  split
  · rfl
  · simp [h]

/-- A write on an existing file appends the chunk. -/
theorem Write_live (d : Disk) (file : OsFile) (c : Chunk) (old : List Chunk)
    (h : d.files file.path = some old) :
    (Write d file c).files file.path = some (old ++ [c]) := by
  unfold Write
  rw [h]
  simp

/-- Disk effect of an optional cut followed by the write, for one stream. -/
theorem stream_step (d d1 : Disk) (live archive : String) (c : Chunk)
    (hne : archive ≠ live) (hlive : ∃ cs, d.files live = some cs)
    (hd1 : d1 = d ∨ OpenFile (Rename d live archive) live = .ok (⟨live⟩, d1)) :
    (∀ p, p ≠ live → p ≠ archive → (Write d1 ⟨live⟩ c).files p = d.files p)
    ∧ (∃ old, (Write d1 ⟨live⟩ c).files live = some (old ++ [c])
        ∧ (old = [] ∨ d.files live = some old))
    ∧ (∀ cs, (Write d1 ⟨live⟩ c).files archive = some cs →
        d.files archive = some cs ∨ d.files live = some cs) := by
  rcases hd1 with hd1 | hd1
  · subst hd1
    obtain ⟨cs0, h0⟩ := hlive
    refine ⟨fun p hp _ => Write_other _ _ _ _ hp, ⟨cs0, Write_live _ ⟨live⟩ c cs0 h0, Or.inr h0⟩,
      ?_⟩
    intro cs hcs
    rw [Write_other _ _ _ _ hne] at hcs
    exact Or.inl hcs
  · obtain ⟨-, ⟨cs0, h0⟩, horig, hother, -⟩ := OpenFile_ok _ _ _ _ hd1
    refine ⟨?_, ⟨cs0, Write_live _ ⟨live⟩ c cs0 h0, ?_⟩, ?_⟩
    · intro p hp hpa
      rw [Write_other _ _ _ _ hp, hother p hp, Rename_other _ _ _ _ hp hpa]
    · rcases horig live cs0 h0 with hr | ⟨-, hr⟩
      · rcases Rename_files _ _ _ _ _ hr with hr1 | ⟨hr1, -⟩
        · exact Or.inr hr1
        · exact absurd hr1.symm hne
      · exact Or.inl hr
    · intro cs hcs
      rw [Write_other _ _ _ _ hne, hother archive hne] at hcs
      rcases Rename_files _ _ _ _ _ hcs with hr1 | ⟨-, hr1⟩
      · exact Or.inl hr1
      · exact Or.inr hr1

/-- An optional cut followed by a write of the right tier keeps the streams apart. -/
theorem Routed_stream_step (full : String) (d d1 : Disk) (live archive : String) (c : Chunk)
    (hR : Routed full d) (hne : archive ≠ live) (hlive : ∃ cs, d.files live = some cs)
    (hd1 : d1 = d ∨ OpenFile (Rename d live archive) live = .ok (⟨live⟩, d1))
    (hI : IsInfoName full live ∨ IsInfoName full archive →
      IsInfoName full live ∧ c.origin < Error)
    (hE : IsErrName full live ∨ IsErrName full archive →
      IsErrName full live ∧ c.origin ≥ Error) :
    Routed full (Write d1 ⟨live⟩ c) := by
  obtain ⟨hother, ⟨old, hold, hold2⟩, harch⟩ := stream_step d d1 live archive c hne hlive hd1
  have holdR : (IsInfoName full live → ∀ x, x ∈ old → x.origin < Error)
      ∧ (IsErrName full live → ∀ x, x ∈ old → x.origin ≥ Error) := by
    rcases hold2 with h | h
    · subst h; exact ⟨fun _ x hx => absurd hx (by simp), fun _ x hx => absurd hx (by simp)⟩
    · exact hR live old h
  intro p cs hp
  by_cases hpl : p = live
  · subst hpl
    rw [hold] at hp
    have e := Option.some.inj hp
    subst e
    constructor
    · intro hn x hx
      rcases List.mem_append.mp hx with hx | hx
      · exact holdR.1 hn x hx
      · rw [List.mem_singleton.mp hx]; exact (hI (Or.inl hn)).2
    · intro hn x hx
      rcases List.mem_append.mp hx with hx | hx
      · exact holdR.2 hn x hx
      · rw [List.mem_singleton.mp hx]; exact (hE (Or.inl hn)).2
  · by_cases hpa : p = archive
    · subst hpa
      rcases harch cs hp with h | h
      · exact hR _ cs h
      · exact ⟨fun hn => (hR live cs h).1 (hI (Or.inr hn)).1,
          fun hn => (hR live cs h).2 (hE (Or.inr hn)).1⟩
    · rw [hother p hpl hpa] at hp
      exact hR p cs hp

/-- Name facts for a write on the error stream. -/
theorem err_stream_names (full : String) (t : Time) (c : Chunk) (hc : c.origin ≥ Error) :
    (full ++ "-error-" ++ t.formatCompact ++ ".log" ≠ full ++ ErrorLogSubfix)
    ∧ (IsInfoName full (full ++ ErrorLogSubfix)
        ∨ IsInfoName full (full ++ "-error-" ++ t.formatCompact ++ ".log") →
      IsInfoName full (full ++ ErrorLogSubfix) ∧ c.origin < Error)
    ∧ (IsErrName full (full ++ ErrorLogSubfix)
        ∨ IsErrName full (full ++ "-error-" ++ t.formatCompact ++ ".log") →
      IsErrName full (full ++ ErrorLogSubfix) ∧ c.origin ≥ Error) := by
  have l1 := errLive_length full
  have l2 := errArchive_length full t
  refine ⟨fun e => ?_, fun h => ?_, fun _ => ⟨Or.inl rfl, hc⟩⟩
  · rw [e] at l2; omega
  · rcases h with h | h
    · have := IsInfoName_length _ _ h; omega
    · have := IsInfoName_length _ _ h; omega

/-- Name facts for a write on the info stream. -/
theorem info_stream_names (full : String) (t : Time) (c : Chunk) (hc : c.origin < Error) :
    (full ++ "-" ++ t.formatCompact ++ ".log" ≠ full ++ InfoLogSubfix)
    ∧ (IsInfoName full (full ++ InfoLogSubfix)
        ∨ IsInfoName full (full ++ "-" ++ t.formatCompact ++ ".log") →
      IsInfoName full (full ++ InfoLogSubfix) ∧ c.origin < Error)
    ∧ (IsErrName full (full ++ InfoLogSubfix)
        ∨ IsErrName full (full ++ "-" ++ t.formatCompact ++ ".log") →
      IsErrName full (full ++ InfoLogSubfix) ∧ c.origin ≥ Error) := by
  have l1 := infoLive_length full
  have l2 := infoArchive_length full t
  refine ⟨fun e => ?_, fun _ => ⟨Or.inl rfl, hc⟩, fun h => ?_⟩
  · rw [e] at l2; omega
  · rcases h with h | h
    · have := IsErrName_length _ _ h; omega
    · have := IsErrName_length _ _ h; omega

section AsyncRouting

variable (pathJoin : String → String → String)

/-- Shape of a successful `initErrFile` of the asynchronous logger. -/
theorem initErrFile_ok (st st1 : State) (h : initErrFile pathJoin st = (st1, none)) :
    ∃ d1, OpenFile st.disk (pathJoin st.f.filePath st.f.fileName ++ ErrorLogSubfix)
        = .ok (⟨pathJoin st.f.filePath st.f.fileName ++ ErrorLogSubfix⟩, d1)
      ∧ st1.disk = d1
      ∧ st1.f.errFileObj = ⟨pathJoin st.f.filePath st.f.fileName ++ ErrorLogSubfix⟩
      ∧ st1.f.fileObj = st.f.fileObj ∧ st1.drainTasks = st.drainTasks + 1 := by
  unfold initErrFile at h
  simp only at h
  split at h
  · exact absurd (Prod.mk.inj h).2 (by simp)
  · next fo d1 ho =>
    have e1 := (Prod.mk.inj h).1
    subst e1
    have hfo := (OpenFile_ok _ _ _ _ ho).1
    subst hfo
    exact ⟨d1, ho, rfl, rfl, rfl, rfl⟩

/-- Shape of a successful `initFile` of the asynchronous logger. -/
theorem initFile_ok (st st1 : State) (h : initFile pathJoin st = (st1, none)) :
    ∃ d1, OpenFile st.disk (pathJoin st.f.filePath st.f.fileName ++ InfoLogSubfix)
        = .ok (⟨pathJoin st.f.filePath st.f.fileName ++ InfoLogSubfix⟩, d1)
      ∧ st1.disk = d1
      ∧ st1.f.fileObj = ⟨pathJoin st.f.filePath st.f.fileName ++ InfoLogSubfix⟩
      ∧ st1.f.errFileObj = st.f.errFileObj ∧ st1.drainTasks = st.drainTasks + 1 := by
  unfold initFile at h
  simp only at h
  split at h
  · exact absurd (Prod.mk.inj h).2 (by simp)
  · next fo d1 ho =>
    have e1 := (Prod.mk.inj h).1
    subst e1
    have hfo := (OpenFile_ok _ _ _ _ ho).1
    subst hfo
    exact ⟨d1, ho, rfl, rfl, rfl, rfl⟩

/-- Shape of the cut check on the error stream (asynchronous logger). -/
theorem cutIfNeeded_err (st st1 : State) (file : OsFile) (level : LogLevel) (now : Time)
    (hl : level ≥ Error) (h : cutIfNeeded pathJoin st file level now = .ok st1) :
    (needCut st file = false ∧ st1 = st)
    ∨ (needCut st file = true ∧ ∃ d1,
        OpenFile (Rename st.disk (pathJoin st.f.filePath st.f.fileName ++ ErrorLogSubfix)
            (pathJoin st.f.filePath st.f.fileName ++ "-error-" ++ now.formatCompact ++ ".log"))
          (pathJoin st.f.filePath st.f.fileName ++ ErrorLogSubfix)
          = .ok (⟨pathJoin st.f.filePath st.f.fileName ++ ErrorLogSubfix⟩, d1)
        ∧ st1.disk = d1
        ∧ st1.f.errFileObj = ⟨pathJoin st.f.filePath st.f.fileName ++ ErrorLogSubfix⟩
        ∧ st1.f.fileObj = st.f.fileObj ∧ st1.drainTasks = st.drainTasks + 1) := by
  unfold cutIfNeeded at h
  split at h
  · next hc =>
    right
    refine ⟨hc, ?_⟩
    unfold splitFile at h
    simp only [hl, if_true] at h
    split at h
    · exact absurd h (by simp)
    · next st2 h2 =>
      have e := Except.ok.inj h
      subst e
      exact initErrFile_ok pathJoin _ _ h2
  · next hc =>
    left
    exact ⟨by simpa using hc, (Except.ok.inj h).symm⟩

/-- Shape of the cut check on the info stream (asynchronous logger). -/
theorem cutIfNeeded_info (st st1 : State) (file : OsFile) (level : LogLevel) (now : Time)
    (hl : level < Error) (h : cutIfNeeded pathJoin st file level now = .ok st1) :
    (needCut st file = false ∧ st1 = st)
    ∨ (needCut st file = true ∧ ∃ d1,
        OpenFile (Rename st.disk (pathJoin st.f.filePath st.f.fileName ++ InfoLogSubfix)
            (pathJoin st.f.filePath st.f.fileName ++ "-" ++ now.formatCompact ++ ".log"))
          (pathJoin st.f.filePath st.f.fileName ++ InfoLogSubfix)
          = .ok (⟨pathJoin st.f.filePath st.f.fileName ++ InfoLogSubfix⟩, d1)
        ∧ st1.disk = d1
        ∧ st1.f.fileObj = ⟨pathJoin st.f.filePath st.f.fileName ++ InfoLogSubfix⟩
        ∧ st1.f.errFileObj = st.f.errFileObj ∧ st1.drainTasks = st.drainTasks + 1) := by
  have hl2 : ¬ level ≥ Error := Nat.not_le.mpr hl
  unfold cutIfNeeded at h
  split at h
  · next hc =>
    right
    refine ⟨hc, ?_⟩
    unfold splitFile at h
    simp only [hl2, if_false] at h
    split at h
    · exact absurd h (by simp)
    · next st2 h2 =>
      have e := Except.ok.inj h
      subst e
      exact initFile_ok pathJoin _ _ h2
  · next hc =>
    left
    exact ⟨by simpa using hc, (Except.ok.inj h).symm⟩

/-- Disk effect of writing a record at `Error` or above. -/
theorem writeRecord_err (st st1 : State) (m : logMsg) (now : Time) (hl : m.Level ≥ Error)
    (hwf : LiveHandles (pathJoin st.f.filePath st.f.fileName) st.f.fileObj st.f.errFileObj
      st.disk)
    (h : writeRecord pathJoin st m now = .ok st1) :
    ∃ d1, (d1 = st.disk
          ∨ OpenFile (Rename st.disk (pathJoin st.f.filePath st.f.fileName ++ ErrorLogSubfix)
              (pathJoin st.f.filePath st.f.fileName ++ "-error-" ++ now.formatCompact
                ++ ".log"))
            (pathJoin st.f.filePath st.f.fileName ++ ErrorLogSubfix)
            = .ok (⟨pathJoin st.f.filePath st.f.fileName ++ ErrorLogSubfix⟩, d1))
      ∧ st1.disk = Write d1 ⟨pathJoin st.f.filePath st.f.fileName ++ ErrorLogSubfix⟩
          ⟨m.Level, doPrintf (logStringFormat m)⟩
      ∧ st1.f.fileObj = st.f.fileObj
      ∧ st1.f.errFileObj = st.f.errFileObj := by
  unfold writeRecord at h
  simp only [hl, if_true] at h
  split at h
  · exact absurd h (by simp)
  · next st2 h2 =>
    have e := Except.ok.inj h
    subst e
    rcases cutIfNeeded_err pathJoin st st2 _ _ now hl h2 with ⟨-, hs⟩ | ⟨-, d1, ho, hd, he, hf, -⟩
    · subst hs
      refine ⟨st2.disk, Or.inl rfl, ?_, rfl, rfl⟩
      simp only
      rw [hwf.2.1]
    · refine ⟨d1, Or.inr ho, ?_, hf, by rw [hwf.2.1]; exact he⟩
      simp only
      rw [he, hd]

/-- Disk effect of writing a record below `Error`. -/
theorem writeRecord_info (st st1 : State) (m : logMsg) (now : Time) (hl : m.Level < Error)
    (hwf : LiveHandles (pathJoin st.f.filePath st.f.fileName) st.f.fileObj st.f.errFileObj
      st.disk)
    (h : writeRecord pathJoin st m now = .ok st1) :
    ∃ d1, (d1 = st.disk
          ∨ OpenFile (Rename st.disk (pathJoin st.f.filePath st.f.fileName ++ InfoLogSubfix)
              (pathJoin st.f.filePath st.f.fileName ++ "-" ++ now.formatCompact ++ ".log"))
            (pathJoin st.f.filePath st.f.fileName ++ InfoLogSubfix)
            = .ok (⟨pathJoin st.f.filePath st.f.fileName ++ InfoLogSubfix⟩, d1))
      ∧ st1.disk = Write d1 ⟨pathJoin st.f.filePath st.f.fileName ++ InfoLogSubfix⟩
          ⟨m.Level, doPrintf (logStringFormat m)⟩
      ∧ st1.f.fileObj = st.f.fileObj
      ∧ st1.f.errFileObj = st.f.errFileObj := by
  have hl2 : ¬ m.Level ≥ Error := Nat.not_le.mpr hl
  unfold writeRecord at h
  simp only [hl2, if_false] at h
  split at h
  · exact absurd h (by simp)
  · next st2 h2 =>
    have e := Except.ok.inj h
    subst e
    rcases cutIfNeeded_info pathJoin st st2 _ _ now hl h2 with ⟨-, hs⟩ | ⟨-, d1, ho, hd, he, hf, -⟩
    · subst hs
      refine ⟨st2.disk, Or.inl rfl, ?_, rfl, rfl⟩
      simp only
      rw [hwf.1]
    · refine ⟨d1, Or.inr ho, ?_, by rw [hwf.1]; exact he, hf⟩
      simp only
      rw [he, hd]

/-- Opening a file keeps the streams apart. -/
theorem Routed_OpenFile (full : String) (d d1 : Disk) (name : String) (h : OsFile)
    (hR : Routed full d) (e : OpenFile d name = .ok (h, d1)) : Routed full d1 := by
  obtain ⟨-, -, horig, -, -⟩ := OpenFile_ok _ _ _ _ e
  intro p cs hp
  rcases horig p cs hp with h1 | ⟨-, h1⟩
  · exact hR p cs h1
  · subst h1
    exact ⟨fun _ x hx => absurd hx (by simp), fun _ x hx => absurd hx (by simp)⟩

/-- The live names differ from each other and from the archives of the other stream. -/
theorem live_names_ne (full : String) (t : Time) :
    full ++ InfoLogSubfix ≠ full ++ ErrorLogSubfix
    ∧ full ++ InfoLogSubfix ≠ full ++ "-error-" ++ t.formatCompact ++ ".log"
    ∧ full ++ ErrorLogSubfix ≠ full ++ "-" ++ t.formatCompact ++ ".log" := by
  have l1 := infoLive_length full
  have l2 := errLive_length full
  have l3 := errArchive_length full t
  have l4 := infoArchive_length full t
  refine ⟨fun e => ?_, fun e => ?_, fun e => ?_⟩
  · rw [e] at l1; omega
  · rw [e] at l1; omega
  · rw [e] at l2; omega

/-- A new asynchronous logger has live handles, and keeps a routed disk routed. -/
theorem NewFileLogger_inv (levelStr fp fn : String) (maxSize : Int) (disk : Disk) (st : State)
    (hR : Routed (pathJoin fp fn) disk)
    (h : NewFileLogger pathJoin levelStr fp fn maxSize disk = .ok st) :
    LiveHandles (pathJoin fp fn) st.f.fileObj st.f.errFileObj st.disk
    ∧ Routed (pathJoin fp fn) st.disk := by
  unfold NewFileLogger at h
  split at h
  · exact absurd h (by simp)
  · simp only at h
    split at h
    · exact absurd h (by simp)
    · next st1 h1 =>
      split at h
      · exact absurd h (by simp)
      · next st2 h2 =>
        have e := Except.ok.inj h
        subst e
        obtain ⟨d1, o1, a1, a2, -, -⟩ := initFile_ok pathJoin _ _ h1
        obtain ⟨d2, o2, b1, b2, b3, -⟩ := initErrFile_ok pathJoin _ _ h2
        have f1 := initFile_fields pathJoin _ _ _ h1
        simp only at o1 a2 f1
        rw [f1.2.1, f1.2.2.1] at o2 b2
        rw [a1] at o2
        obtain ⟨-, ex1, -, -, -⟩ := OpenFile_ok _ _ _ _ o1
        obtain ⟨-, ex2, -, oth2, -⟩ := OpenFile_ok _ _ _ _ o2
        refine ⟨⟨by rw [b3, a2], b2, ?_, by rw [b1]; exact ex2⟩, ?_⟩
        · rw [b1, oth2 _ (live_names_ne (pathJoin fp fn) sampleTime).1]
          exact ex1
        · rw [b1]
          exact Routed_OpenFile _ _ _ _ _ (Routed_OpenFile _ _ _ _ _ hR o1) o2

/-- Writing a record keeps the handles live and the streams apart. -/
theorem writeRecord_inv (st st1 : State) (m : logMsg) (now : Time)
    (hwf : LiveHandles (pathJoin st.f.filePath st.f.fileName) st.f.fileObj st.f.errFileObj
      st.disk)
    (hR : Routed (pathJoin st.f.filePath st.f.fileName) st.disk)
    (h : writeRecord pathJoin st m now = .ok st1) :
    LiveHandles (pathJoin st.f.filePath st.f.fileName) st1.f.fileObj st1.f.errFileObj st1.disk
    ∧ Routed (pathJoin st.f.filePath st.f.fileName) st1.disk := by
  obtain ⟨w1, w2, w3, w4⟩ := hwf
  have nn := live_names_ne (pathJoin st.f.filePath st.f.fileName) now
  by_cases hl : m.Level ≥ Error
  · obtain ⟨d1, hd1, hdisk, hf, he⟩ := writeRecord_err pathJoin st st1 m now hl ⟨w1, w2, w3, w4⟩ h
    obtain ⟨n1, n2, n3⟩ := err_stream_names (pathJoin st.f.filePath st.f.fileName) now
      ⟨m.Level, doPrintf (logStringFormat m)⟩ hl
    obtain ⟨s1, ⟨old, s2, -⟩, -⟩ := stream_step st.disk d1 _ _
      ⟨m.Level, doPrintf (logStringFormat m)⟩ n1 w4 hd1
    refine ⟨⟨by rw [hf]; exact w1, by rw [he]; exact w2, ?_, ?_⟩, ?_⟩
    · rw [hdisk, s1 _ nn.1 nn.2.1]; exact w3
    · rw [hdisk]; exact ⟨_, s2⟩
    · rw [hdisk]
      exact Routed_stream_step _ _ _ _ _ _ hR n1 w4 hd1 n2 n3
  · have hl2 : m.Level < Error := Nat.not_le.mp hl
    obtain ⟨d1, hd1, hdisk, hf, he⟩ := writeRecord_info pathJoin st st1 m now hl2 ⟨w1, w2, w3, w4⟩ h
    obtain ⟨n1, n2, n3⟩ := info_stream_names (pathJoin st.f.filePath st.f.fileName) now
      ⟨m.Level, doPrintf (logStringFormat m)⟩ hl2
    obtain ⟨s1, ⟨old, s2, -⟩, -⟩ := stream_step st.disk d1 _ _
      ⟨m.Level, doPrintf (logStringFormat m)⟩ n1 w3 hd1
    refine ⟨⟨by rw [hf]; exact w1, by rw [he]; exact w2, ?_, ?_⟩, ?_⟩
    · rw [hdisk]; exact ⟨_, s2⟩
    · rw [hdisk, s1 _ (Ne.symm nn.1) nn.2.2]; exact w4
    · rw [hdisk]
      exact Routed_stream_step _ _ _ _ _ _ hR n1 w3 hd1 n2 n3

/-- Along every execution the handles stay live and the streams stay apart. -/
theorem run_inv (st0 st : State) (h : Run pathJoin st0 st)
    (h0 : LiveHandles (pathJoin st0.f.filePath st0.f.fileName) st0.f.fileObj st0.f.errFileObj
        st0.disk
      ∧ Routed (pathJoin st0.f.filePath st0.f.fileName) st0.disk) :
    st.f.filePath = st0.f.filePath ∧ st.f.fileName = st0.f.fileName
    ∧ LiveHandles (pathJoin st0.f.filePath st0.f.fileName) st.f.fileObj st.f.errFileObj st.disk
    ∧ Routed (pathJoin st0.f.filePath st0.f.fileName) st.disk := by
  induction h with
  | refl => exact ⟨rfl, rfl, h0⟩
  | log level msg now caller _ hstep ih =>
    obtain ⟨-, l2, l3, -, l5, l6, l7, -, -, -⟩ := log_fields _ _ level msg now caller hstep
    rw [l2, l3, l5, l6, l7]
    exact ih
  | @drain sta stb now _ hstep ih =>
    obtain ⟨i1, i2, i3, i4⟩ := ih
    unfold writeLogBackground at hstep
    split at hstep
    · next m rest hr =>
      have w := writeRecord_fields pathJoin _ _ m now hstep
      simp only at w
      have hi := writeRecord_inv pathJoin _ stb m now
        (by simp only; rw [i1, i2]; exact i3) (by simp only; rw [i1, i2]; exact i4) hstep
      simp only at hi
      rw [i1, i2] at hi
      exact ⟨w.2.1.trans i1, w.2.2.1.trans i2, hi⟩
    · have e := Except.ok.inj hstep
      subst e
      exact ⟨i1, i2, i3, i4⟩

end AsyncRouting

section SyncRouting

variable (pathJoin : String → String → String)

/-- Shape of a successful `initErrFile` of the synchronous logger. -/
theorem sync_initErrFile_ok (st st1 : Common.State)
    (h : Common.initErrFile pathJoin st = (st1, none)) :
    ∃ d1, OpenFile st.disk (pathJoin st.f.filePath st.f.fileName ++ ErrorLogSubfix)
        = .ok (⟨pathJoin st.f.filePath st.f.fileName ++ ErrorLogSubfix⟩, d1)
      ∧ st1 = { f := { st.f with
                  errFileObj := ⟨pathJoin st.f.filePath st.f.fileName ++ ErrorLogSubfix⟩ },
                disk := d1 } := by
  unfold Common.initErrFile at h
  simp only at h
  split at h
  · exact absurd (Prod.mk.inj h).2 (by simp)
  · next fo d1 ho =>
    have e1 := (Prod.mk.inj h).1
    subst e1
    have hfo := (OpenFile_ok _ _ _ _ ho).1
    subst hfo
    exact ⟨d1, ho, rfl⟩

/-- Shape of a successful `initFile` of the synchronous logger. -/
theorem sync_initFile_ok (st st1 : Common.State)
    (h : Common.initFile pathJoin st = (st1, none)) :
    ∃ d1, OpenFile st.disk (pathJoin st.f.filePath st.f.fileName ++ InfoLogSubfix)
        = .ok (⟨pathJoin st.f.filePath st.f.fileName ++ InfoLogSubfix⟩, d1)
      ∧ st1 = { f := { st.f with
                  fileObj := ⟨pathJoin st.f.filePath st.f.fileName ++ InfoLogSubfix⟩ },
                disk := d1 } := by
  unfold Common.initFile at h
  simp only at h
  split at h
  · exact absurd (Prod.mk.inj h).2 (by simp)
  · next fo d1 ho =>
    have e1 := (Prod.mk.inj h).1
    subst e1
    have hfo := (OpenFile_ok _ _ _ _ ho).1
    subst hfo
    exact ⟨d1, ho, rfl⟩

/-- Shape of the cut check on the error stream (synchronous logger). -/
theorem sync_cutIfNeeded_err (st st1 : Common.State) (file : OsFile) (level : LogLevel)
    (now : Time) (hl : level ≥ Error)
    (h : Common.cutIfNeeded pathJoin st file level now = .ok st1) :
    st1 = st
    ∨ ∃ d1,
        OpenFile (Rename st.disk (pathJoin st.f.filePath st.f.fileName ++ ErrorLogSubfix)
            (pathJoin st.f.filePath st.f.fileName ++ "-error-" ++ now.formatCompact ++ ".log"))
          (pathJoin st.f.filePath st.f.fileName ++ ErrorLogSubfix)
          = .ok (⟨pathJoin st.f.filePath st.f.fileName ++ ErrorLogSubfix⟩, d1)
        ∧ st1 = { f := { st.f with
                    errFileObj := ⟨pathJoin st.f.filePath st.f.fileName ++ ErrorLogSubfix⟩ },
                  disk := d1 } := by
  unfold Common.cutIfNeeded at h
  split at h
  · right
    unfold Common.splitFile at h
    simp only [hl, if_true] at h
    split at h
    · exact absurd h (by simp)
    · next st2 h2 =>
      have e := Except.ok.inj h
      subst e
      exact sync_initErrFile_ok pathJoin _ _ h2
  · left
    exact (Except.ok.inj h).symm

/-- Shape of the cut check on the info stream (synchronous logger). -/
theorem sync_cutIfNeeded_info (st st1 : Common.State) (file : OsFile) (level : LogLevel)
    (now : Time) (hl : level < Error)
    (h : Common.cutIfNeeded pathJoin st file level now = .ok st1) :
    st1 = st
    ∨ ∃ d1,
        OpenFile (Rename st.disk (pathJoin st.f.filePath st.f.fileName ++ InfoLogSubfix)
            (pathJoin st.f.filePath st.f.fileName ++ "-" ++ now.formatCompact ++ ".log"))
          (pathJoin st.f.filePath st.f.fileName ++ InfoLogSubfix)
          = .ok (⟨pathJoin st.f.filePath st.f.fileName ++ InfoLogSubfix⟩, d1)
        ∧ st1 = { f := { st.f with
                    fileObj := ⟨pathJoin st.f.filePath st.f.fileName ++ InfoLogSubfix⟩ },
                  disk := d1 } := by
  have hl2 : ¬ level ≥ Error := Nat.not_le.mpr hl
  unfold Common.cutIfNeeded at h
  split at h
  · right
    unfold Common.splitFile at h
    simp only [hl2, if_false] at h
    split at h
    · exact absurd h (by simp)
    · next st2 h2 =>
      have e := Except.ok.inj h
      subst e
      exact sync_initFile_ok pathJoin _ _ h2
  · left
    exact (Except.ok.inj h).symm

/-- A synchronous call below the minimum level returns the state it was given. -/
theorem sync_log_below (st : Common.State) (level : LogLevel) (msg : String) (now : Time)
    (caller : Option Frame) (cutTime : Time) (h : level < st.f.Level) :
    Common.log pathJoin st level msg now caller cutTime = .ok st := by
  unfold Common.log Common.enable
  have : ¬ level ≥ st.f.Level := Nat.not_le.mpr h
  simp [this]

/-- Disk effect of a synchronous call at `Error` or above. -/
theorem sync_log_err (st st1 : Common.State) (level : LogLevel) (msg : String) (now : Time)
    (caller : Option Frame) (cutTime : Time) (hen : level ≥ st.f.Level) (hl : level ≥ Error)
    (hwf : LiveHandles (pathJoin st.f.filePath st.f.fileName) st.f.fileObj st.f.errFileObj
      st.disk)
    (h : Common.log pathJoin st level msg now caller cutTime = .ok st1) :
    ∃ funcName fileName lineNo, getInfo caller = .ok (funcName, fileName, lineNo) ∧ ∃ d1,
      (d1 = st.disk
          ∨ OpenFile (Rename st.disk (pathJoin st.f.filePath st.f.fileName ++ ErrorLogSubfix)
              (pathJoin st.f.filePath st.f.fileName ++ "-error-" ++ cutTime.formatCompact
                ++ ".log"))
            (pathJoin st.f.filePath st.f.fileName ++ ErrorLogSubfix)
            = .ok (⟨pathJoin st.f.filePath st.f.fileName ++ ErrorLogSubfix⟩, d1))
      ∧ st1 = { f := st.f,
                disk := Write d1 ⟨pathJoin st.f.filePath st.f.fileName ++ ErrorLogSubfix⟩
                  ⟨level, formatLine now.formatStamp (levelLabel level) fileName funcName lineNo
                    msg⟩ } := by
  obtain ⟨funcName, fileName, lineNo, hg⟩ := getInfo_ok caller
  refine ⟨funcName, fileName, lineNo, hg, ?_⟩
  unfold Common.log Common.enable at h
  simp only [hen, hg, hl, decide_True, Bool.not_true, if_true, Bool.false_eq_true, if_false] at h
  obtain ⟨w1, w2, -, -⟩ := hwf
  split at h
  · exact absurd h (by simp)
  · next st2 h2 =>
    have e := Except.ok.inj h
    subst e
    rcases sync_cutIfNeeded_err pathJoin st st2 _ _ cutTime hl h2 with hs | ⟨d1, ho, hs⟩
    · subst hs
      refine ⟨st2.disk, Or.inl rfl, ?_⟩
      rw [w2]
    · subst hs
      refine ⟨d1, Or.inr ho, ?_⟩
      simp only
      have : st.f = { st.f with
          errFileObj := ⟨pathJoin st.f.filePath st.f.fileName ++ ErrorLogSubfix⟩ } := by
        rw [← w2]
      rw [← this]

/-- Disk effect of a synchronous call below `Error`. -/
theorem sync_log_info (st st1 : Common.State) (level : LogLevel) (msg : String) (now : Time)
    (caller : Option Frame) (cutTime : Time) (hen : level ≥ st.f.Level) (hl : level < Error)
    (hwf : LiveHandles (pathJoin st.f.filePath st.f.fileName) st.f.fileObj st.f.errFileObj
      st.disk)
    (h : Common.log pathJoin st level msg now caller cutTime = .ok st1) :
    ∃ funcName fileName lineNo, getInfo caller = .ok (funcName, fileName, lineNo) ∧ ∃ d1,
      (d1 = st.disk
          ∨ OpenFile (Rename st.disk (pathJoin st.f.filePath st.f.fileName ++ InfoLogSubfix)
              (pathJoin st.f.filePath st.f.fileName ++ "-" ++ cutTime.formatCompact ++ ".log"))
            (pathJoin st.f.filePath st.f.fileName ++ InfoLogSubfix)
            = .ok (⟨pathJoin st.f.filePath st.f.fileName ++ InfoLogSubfix⟩, d1))
      ∧ st1 = { f := st.f,
                disk := Write d1 ⟨pathJoin st.f.filePath st.f.fileName ++ InfoLogSubfix⟩
                  ⟨level, formatLine now.formatStamp (levelLabel level) fileName funcName lineNo
                    msg⟩ } := by
  have hl2 : ¬ level ≥ Error := Nat.not_le.mpr hl
  obtain ⟨funcName, fileName, lineNo, hg⟩ := getInfo_ok caller
  refine ⟨funcName, fileName, lineNo, hg, ?_⟩
  unfold Common.log Common.enable at h
  simp only [hen, hg, hl2, decide_True, Bool.not_true, if_true, Bool.false_eq_true, if_false]
    at h
  obtain ⟨w1, w2, -, -⟩ := hwf
  split at h
  · exact absurd h (by simp)
  · next st2 h2 =>
    have e := Except.ok.inj h
    subst e
    rcases sync_cutIfNeeded_info pathJoin st st2 _ _ cutTime hl h2 with hs | ⟨d1, ho, hs⟩
    · subst hs
      refine ⟨st2.disk, Or.inl rfl, ?_⟩
      rw [w1]
    · subst hs
      refine ⟨d1, Or.inr ho, ?_⟩
      simp only
      have : st.f = { st.f with
          fileObj := ⟨pathJoin st.f.filePath st.f.fileName ++ InfoLogSubfix⟩ } := by
        rw [← w1]
      rw [← this]

end SyncRouting

/-- A write on the error stream leaves every info-stream file as it was and appends to the
live error file. -/
theorem err_write_routing (full : String) (d d1 : Disk) (t : Time) (c : Chunk)
    (hlive : ∃ cs, d.files (full ++ ErrorLogSubfix) = some cs)
    (hd1 : d1 = d ∨ OpenFile (Rename d (full ++ ErrorLogSubfix)
        (full ++ "-error-" ++ t.formatCompact ++ ".log")) (full ++ ErrorLogSubfix)
      = .ok (⟨full ++ ErrorLogSubfix⟩, d1)) :
    (∀ p, IsInfoName full p → (Write d1 ⟨full ++ ErrorLogSubfix⟩ c).files p = d.files p)
    ∧ ∃ old, (Write d1 ⟨full ++ ErrorLogSubfix⟩ c).files (full ++ ErrorLogSubfix)
          = some (old ++ [c])
        ∧ (old = [] ∨ d.files (full ++ ErrorLogSubfix) = some old) := by
  have l1 := errLive_length full
  have l2 := errArchive_length full t
  have hne : full ++ "-error-" ++ t.formatCompact ++ ".log" ≠ full ++ ErrorLogSubfix := by
    intro e; rw [e] at l2; omega
  obtain ⟨s1, s2, -⟩ := stream_step d d1 _ _ c hne hlive hd1
  refine ⟨fun p hp => s1 p ?_ ?_, s2⟩
  · intro e; have := IsInfoName_length _ _ hp; rw [e] at this; omega
  · intro e; have := IsInfoName_length _ _ hp; rw [e] at this; omega

/-- A write on the info stream leaves every error-stream file as it was and appends to the
live info file. -/
theorem info_write_routing (full : String) (d d1 : Disk) (t : Time) (c : Chunk)
    (hlive : ∃ cs, d.files (full ++ InfoLogSubfix) = some cs)
    (hd1 : d1 = d ∨ OpenFile (Rename d (full ++ InfoLogSubfix)
        (full ++ "-" ++ t.formatCompact ++ ".log")) (full ++ InfoLogSubfix)
      = .ok (⟨full ++ InfoLogSubfix⟩, d1)) :
    (∀ p, IsErrName full p → (Write d1 ⟨full ++ InfoLogSubfix⟩ c).files p = d.files p)
    ∧ ∃ old, (Write d1 ⟨full ++ InfoLogSubfix⟩ c).files (full ++ InfoLogSubfix)
          = some (old ++ [c])
        ∧ (old = [] ∨ d.files (full ++ InfoLogSubfix) = some old) := by
  have l1 := infoLive_length full
  have l2 := infoArchive_length full t
  have hne : full ++ "-" ++ t.formatCompact ++ ".log" ≠ full ++ InfoLogSubfix := by
    intro e; rw [e] at l2; omega
  obtain ⟨s1, s2, -⟩ := stream_step d d1 _ _ c hne hlive hd1
  refine ⟨fun p hp => s1 p ?_ ?_, s2⟩
  · intro e; have := IsErrName_length _ _ hp; rw [e] at this; omega
  · intro e; have := IsErrName_length _ _ hp; rw [e] at this; omega

section Routing

variable (pathJoin : String → String → String)

/-- A new synchronous logger has live handles, and keeps a routed disk routed. -/
theorem sync_NewFileLogger_inv (levelStr fp fn : String) (maxSize : Int) (disk : Disk)
    (st : Common.State)
    (h : Common.NewFileLogger pathJoin levelStr fp fn maxSize disk = .ok st) :
    st.f.filePath = fp ∧ st.f.fileName = fn
    ∧ LiveHandles (pathJoin fp fn) st.f.fileObj st.f.errFileObj st.disk
    ∧ (Routed (pathJoin fp fn) disk → Routed (pathJoin fp fn) st.disk) := by
  unfold Common.NewFileLogger at h
  split at h
  · exact absurd h (by simp)
  · simp only at h
    split at h
    · exact absurd h (by simp)
    · next st1 h1 =>
      split at h
      · exact absurd h (by simp)
      · next st2 h2 =>
        have e := Except.ok.inj h
        subst e
        obtain ⟨d1, o1, a1⟩ := sync_initFile_ok pathJoin _ _ h1
        subst a1
        obtain ⟨d2, o2, b1⟩ := sync_initErrFile_ok pathJoin _ _ h2
        subst b1
        simp only at o1 o2
        obtain ⟨-, ex1, -, -, -⟩ := OpenFile_ok _ _ _ _ o1
        obtain ⟨-, ex2, -, oth2, -⟩ := OpenFile_ok _ _ _ _ o2
        refine ⟨rfl, rfl, ⟨rfl, rfl, ?_, ex2⟩, ?_⟩
        · simp only
          rw [oth2 _ (live_names_ne (pathJoin fp fn) sampleTime).1]
          exact ex1
        · intro hR
          exact Routed_OpenFile _ _ _ _ _ (Routed_OpenFile _ _ _ _ _ hR o1) o2

/-- Routing of one synchronous `log` call. -/
theorem sync_log_routing (st st1 : Common.State) (level : LogLevel) (msg : String)
    (now : Time) (caller : Option Frame) (cutTime : Time)
    (hwf : LiveHandles (pathJoin st.f.filePath st.f.fileName) st.f.fileObj st.f.errFileObj
      st.disk)
    (h : Common.log pathJoin st level msg now caller cutTime = .ok st1) :
    st1.f = st.f
    ∧ LiveHandles (pathJoin st.f.filePath st.f.fileName) st1.f.fileObj st1.f.errFileObj st1.disk
    ∧ (Routed (pathJoin st.f.filePath st.f.fileName) st.disk
        → Routed (pathJoin st.f.filePath st.f.fileName) st1.disk)
    ∧ (level < st.f.Level → st1 = st)
    ∧ (level ≥ Error →
        (∀ p, IsInfoName (pathJoin st.f.filePath st.f.fileName) p →
          st1.disk.files p = st.disk.files p)
        ∧ (level ≥ st.f.Level → ∃ old line,
            st1.disk.files (pathJoin st.f.filePath st.f.fileName ++ ErrorLogSubfix)
              = some (old ++ [⟨level, line⟩])
            ∧ (old = [] ∨ st.disk.files (pathJoin st.f.filePath st.f.fileName ++ ErrorLogSubfix)
                = some old)))
    ∧ (level < Error →
        (∀ p, IsErrName (pathJoin st.f.filePath st.f.fileName) p →
          st1.disk.files p = st.disk.files p)
        ∧ (level ≥ st.f.Level → ∃ old line,
            st1.disk.files (pathJoin st.f.filePath st.f.fileName ++ InfoLogSubfix)
              = some (old ++ [⟨level, line⟩])
            ∧ (old = [] ∨ st.disk.files (pathJoin st.f.filePath st.f.fileName ++ InfoLogSubfix)
                = some old))) := by
  by_cases hen : level ≥ st.f.Level
  · have nn := live_names_ne (pathJoin st.f.filePath st.f.fileName) cutTime
    by_cases hl : level ≥ Error
    · obtain ⟨funcName, fileName, lineNo, -, d1, hd1, hs⟩ :=
        sync_log_err pathJoin st st1 level msg now caller cutTime hen hl hwf h
      subst hs
      obtain ⟨w1, w2, w3, w4⟩ := hwf
      obtain ⟨n1, n2, n3⟩ := err_stream_names (pathJoin st.f.filePath st.f.fileName) cutTime
        ⟨level, formatLine now.formatStamp (levelLabel level) fileName funcName lineNo msg⟩ hl
      obtain ⟨r1, old, r2, r3⟩ := err_write_routing (pathJoin st.f.filePath st.f.fileName)
        st.disk d1 cutTime
        ⟨level, formatLine now.formatStamp (levelLabel level) fileName funcName lineNo msg⟩
        w4 hd1
      obtain ⟨s1, -, -⟩ := stream_step st.disk d1 _ _
        ⟨level, formatLine now.formatStamp (levelLabel level) fileName funcName lineNo msg⟩
        n1 w4 hd1
      refine ⟨rfl, ⟨w1, w2, ?_, ⟨_, r2⟩⟩, ?_, ?_, ?_, ?_⟩
      · simp only
        rw [s1 _ nn.1 nn.2.1]; exact w3
      · intro hR
        exact Routed_stream_step _ _ _ _ _ _ hR n1 w4 hd1 n2 n3
      · intro hlt; exact absurd hen (Nat.not_le.mpr hlt)
      · intro _
        exact ⟨r1, fun _ => ⟨old, _, r2, r3⟩⟩
      · intro hlt; exact absurd hl (Nat.not_le.mpr hlt)
    · have hl2 : level < Error := Nat.not_le.mp hl
      obtain ⟨funcName, fileName, lineNo, -, d1, hd1, hs⟩ :=
        sync_log_info pathJoin st st1 level msg now caller cutTime hen hl2 hwf h
      subst hs
      obtain ⟨w1, w2, w3, w4⟩ := hwf
      obtain ⟨n1, n2, n3⟩ := info_stream_names (pathJoin st.f.filePath st.f.fileName) cutTime
        ⟨level, formatLine now.formatStamp (levelLabel level) fileName funcName lineNo msg⟩ hl2
      obtain ⟨r1, old, r2, r3⟩ := info_write_routing (pathJoin st.f.filePath st.f.fileName)
        st.disk d1 cutTime
        ⟨level, formatLine now.formatStamp (levelLabel level) fileName funcName lineNo msg⟩
        w3 hd1
      obtain ⟨s1, -, -⟩ := stream_step st.disk d1 _ _
        ⟨level, formatLine now.formatStamp (levelLabel level) fileName funcName lineNo msg⟩
        n1 w3 hd1
      refine ⟨rfl, ⟨w1, w2, ⟨_, r2⟩, ?_⟩, ?_, ?_, ?_, ?_⟩
      · simp only
        rw [s1 _ (Ne.symm nn.1) nn.2.2]; exact w4
      · intro hR
        exact Routed_stream_step _ _ _ _ _ _ hR n1 w3 hd1 n2 n3
      · intro hlt; exact absurd hen (Nat.not_le.mpr hlt)
      · intro hge; exact absurd hge hl
      · intro _
        exact ⟨r1, fun _ => ⟨old, _, r2, r3⟩⟩
  · have hlt : level < st.f.Level := Nat.not_le.mp hen
    rw [sync_log_below pathJoin st level msg now caller cutTime hlt] at h
    have e := Except.ok.inj h
    subst e
    exact ⟨rfl, hwf, fun hR => hR, fun _ => rfl,
      fun _ => ⟨fun _ _ => rfl, fun hge => absurd hge hen⟩,
      fun _ => ⟨fun _ _ => rfl, fun hge => absurd hge hen⟩⟩

end Routing

section Claims

variable (pathJoin : String → String → String)

/-- C5: start from a successful `NewFileLogger` on a file system without cross-writes and
run any log calls and drain iterations. Then no write made for a record at `Error` or above
is in a file of the info stream and no write made for a record below `Error` is in a file
of the error stream; a drain iteration on a dequeued record `m` with `m.Level >= Error`
appends to the live error file and leaves every file of the info stream as it was, and with
`m.Level < Error` appends to the live info file and leaves every file of the error stream as
it was; the iteration returns whenever the two live paths can be opened. The synchronous
`FileLogger.log` of `src/common/file.go` routes the same way: its constructor opens the two
live files, and each call returns whenever the two live paths can be opened, keeps the
files open, keeps the streams apart, and touches only the stream of its level. -/
theorem C5_streams_never_cross (levelStr fp fn : String) (maxSize : Int) (disk : Disk)
    (st0 st : State)
    (hnew : NewFileLogger pathJoin levelStr fp fn maxSize disk = .ok st0)
    (hclean : Routed (pathJoin fp fn) disk)
    (hrun : Run pathJoin st0 st) :
    Routed (pathJoin fp fn) st.disk
    ∧ (∀ m rest now st1, st.f.logChan.buf = m :: rest →
        writeLogBackground pathJoin st now = .ok st1 →
        (m.Level ≥ Error →
          (∀ p, IsInfoName (pathJoin fp fn) p → st1.disk.files p = st.disk.files p)
          ∧ ∃ old, st1.disk.files (pathJoin fp fn ++ ErrorLogSubfix)
                = some (old ++ [⟨m.Level, doPrintf (logStringFormat m)⟩])
              ∧ (old = [] ∨ st.disk.files (pathJoin fp fn ++ ErrorLogSubfix) = some old))
        ∧ (m.Level < Error →
          (∀ p, IsErrName (pathJoin fp fn) p → st1.disk.files p = st.disk.files p)
          ∧ ∃ old, st1.disk.files (pathJoin fp fn ++ InfoLogSubfix)
                = some (old ++ [⟨m.Level, doPrintf (logStringFormat m)⟩])
              ∧ (old = [] ∨ st.disk.files (pathJoin fp fn ++ InfoLogSubfix) = some old)))
    ∧ (∀ now, st.disk.denied (pathJoin fp fn ++ InfoLogSubfix) = false →
        st.disk.denied (pathJoin fp fn ++ ErrorLogSubfix) = false →
        ∃ st1, writeLogBackground pathJoin st now = .ok st1)
    ∧ (∀ levelStr2 maxSize2 disk2 s, Common.NewFileLogger pathJoin levelStr2 fp fn maxSize2 disk2
          = .ok s →
        s.f.filePath = fp ∧ s.f.fileName = fn
        ∧ LiveHandles (pathJoin fp fn) s.f.fileObj s.f.errFileObj s.disk
        ∧ (Routed (pathJoin fp fn) disk2 → Routed (pathJoin fp fn) s.disk))
    ∧ (∀ s s1 level msg now caller cutTime, s.f.filePath = fp → s.f.fileName = fn →
        LiveHandles (pathJoin fp fn) s.f.fileObj s.f.errFileObj s.disk →
        (s.disk.denied (pathJoin fp fn ++ InfoLogSubfix) = false →
          s.disk.denied (pathJoin fp fn ++ ErrorLogSubfix) = false →
          ∃ s2, Common.log pathJoin s level msg now caller cutTime = .ok s2)
        ∧ (Common.log pathJoin s level msg now caller cutTime = .ok s1 →
        s1.f = s.f
        ∧ LiveHandles (pathJoin fp fn) s1.f.fileObj s1.f.errFileObj s1.disk
        ∧ (Routed (pathJoin fp fn) s.disk → Routed (pathJoin fp fn) s1.disk)
        ∧ (level ≥ Error →
            (∀ p, IsInfoName (pathJoin fp fn) p → s1.disk.files p = s.disk.files p)
            ∧ (level ≥ s.f.Level → ∃ old line,
                s1.disk.files (pathJoin fp fn ++ ErrorLogSubfix) = some (old ++ [⟨level, line⟩])
                ∧ (old = [] ∨ s.disk.files (pathJoin fp fn ++ ErrorLogSubfix) = some old)))
        ∧ (level < Error →
            (∀ p, IsErrName (pathJoin fp fn) p → s1.disk.files p = s.disk.files p)
            ∧ (level ≥ s.f.Level → ∃ old line,
                s1.disk.files (pathJoin fp fn ++ InfoLogSubfix) = some (old ++ [⟨level, line⟩])
                ∧ (old = [] ∨ s.disk.files (pathJoin fp fn ++ InfoLogSubfix) = some old))))) := by
  obtain ⟨c1, c2, -, -⟩ := NewFileLogger_fields pathJoin levelStr fp fn maxSize disk st0 hnew
  have i0 := NewFileLogger_inv pathJoin levelStr fp fn maxSize disk st0 hclean hnew
  have hi := run_inv pathJoin st0 st hrun (by rw [c1, c2]; exact i0)
  rw [c1, c2] at hi
  obtain ⟨e1, e2, hwf, hR⟩ := hi
  refine ⟨hR, ?_, ?_, ?_, ?_⟩
  · intro m rest now st1 hq hstep
    have e : writeLogBackground pathJoin st now
        = writeRecord pathJoin { st with f := { st.f with logChan := ⟨rest, st.f.logChan.cap⟩ } }
            m now := by
      unfold writeLogBackground Chan.tryRecv
      rw [hq]
    rw [e] at hstep
    constructor
    · intro hl
      obtain ⟨d1, hd1, hdisk, -, -⟩ := writeRecord_err pathJoin _ st1 m now hl
        (by simp only; rw [e1, e2]; exact hwf) hstep
      simp only at hd1 hdisk
      rw [e1, e2] at hd1 hdisk
      rw [hdisk]
      exact err_write_routing (pathJoin fp fn) st.disk d1 now _ hwf.2.2.2 hd1
    · intro hl
      obtain ⟨d1, hd1, hdisk, -, -⟩ := writeRecord_info pathJoin _ st1 m now hl
        (by simp only; rw [e1, e2]; exact hwf) hstep
      simp only at hd1 hdisk
      rw [e1, e2] at hd1 hdisk
      rw [hdisk]
      exact info_write_routing (pathJoin fp fn) st.disk d1 now _ hwf.2.2.1 hd1
  · intro now hi he
    exact writeLogBackground_total pathJoin st now (by rw [e1, e2]; exact hi)
      (by rw [e1, e2]; exact he)
  · intro levelStr2 maxSize2 disk2 s hs
    exact sync_NewFileLogger_inv pathJoin levelStr2 fp fn maxSize2 disk2 s hs
  · intro s s1 level msg now caller cutTime hfp hfn hw
    constructor
    · intro hi he
      exact sync_log_total pathJoin s level msg now caller cutTime (by rw [hfp, hfn]; exact hi)
        (by rw [hfp, hfn]; exact he)
    · intro hlog
      have r := sync_log_routing pathJoin s s1 level msg now caller cutTime
        (by rw [hfp, hfn]; exact hw) hlog
      rw [hfp, hfn] at r
      exact ⟨r.1, r.2.1, r.2.2.1, r.2.2.2.2.1, r.2.2.2.2.2⟩

/-- The empty file system has no cross-write. -/
theorem emptyDisk_routed (full : String) : Routed full emptyDisk := by
  intro p cs h
  exact absurd h (by simp [emptyDisk])

/-- C5 (witness): the sample logger built on the empty file system, after one `Warn("z")`
call. -/
theorem C5_streams_never_cross_witness :
    NewFileLogger slashJoin "warn" "logs" "app" 100 emptyDisk = .ok sampleState
    ∧ Routed (slashJoin "logs" "app") emptyDisk
    ∧ Run slashJoin sampleState queuedState
    ∧ Routed (slashJoin "logs" "app") queuedState.disk :=
  have hnew : NewFileLogger slashJoin "warn" "logs" "app" 100 emptyDisk = .ok sampleState := rfl
  have hrun : Run slashJoin sampleState queuedState :=
    Run.log Warn "z" sampleTime (some sampleFrame) (Run.refl sampleState) rfl
  ⟨hnew, emptyDisk_routed _, hrun,
    (C5_streams_never_cross slashJoin "warn" "logs" "app" 100 emptyDisk sampleState queuedState hnew
      (emptyDisk_routed _) hrun).1⟩

/-- A rename of an existing file to a path that is not denied moves the content. -/
theorem Rename_moved (d : Disk) (o n : String) (old : List Chunk)
    (ho : d.files o = some old) (hn : d.denied n = false) (hne : n ≠ o) :
    (Rename d o n).files n = some old ∧ (Rename d o n).files o = none := by
  unfold Rename
  rw [ho]
  simp only [hn, Bool.false_eq_true, if_false]
  exact ⟨by simp, by simp [Ne.symm hne]⟩

/-- The archive name of a stream differs from its live name. -/
theorem archiveName_ne_liveName (full : String) (level : LogLevel) (now : Time) :
    archiveName full level now ≠ liveName full level := by
  unfold archiveName liveName
  have l1 := infoLive_length full
  have l2 := errLive_length full
  have l3 := errArchive_length full now
  have l4 := infoArchive_length full now
  split
  · intro e; rw [e] at l3; omega
  · intro e; rw [e] at l4; omega

/-- When the cut check fires, the write step is: rename the live file of the selected
stream to its archive name, reopen the live name, start a drain task, and write on the
handle just opened; a failed reopen is the failure of the step. -/
theorem writeRecord_when_cut (st : State) (m : logMsg) (now : Time)
    (hcut : needCut st (selectedHandle st m.Level) = true) :
    (∀ e, OpenFile (Rename st.disk (liveName (pathJoin st.f.filePath st.f.fileName) m.Level)
          (archiveName (pathJoin st.f.filePath st.f.fileName) m.Level now))
        (liveName (pathJoin st.f.filePath st.f.fileName) m.Level) = .error e →
      writeRecord pathJoin st m now = .error e)
    ∧ (∀ h d1, OpenFile (Rename st.disk (liveName (pathJoin st.f.filePath st.f.fileName) m.Level)
          (archiveName (pathJoin st.f.filePath st.f.fileName) m.Level now))
        (liveName (pathJoin st.f.filePath st.f.fileName) m.Level) = .ok (h, d1) →
      ∃ st1, writeRecord pathJoin st m now = .ok st1
        ∧ st1.disk = Write d1 h ⟨m.Level, doPrintf (logStringFormat m)⟩
        ∧ selectedHandle st1 m.Level = h
        ∧ h = ⟨liveName (pathJoin st.f.filePath st.f.fileName) m.Level⟩
        ∧ st1.drainTasks = st.drainTasks + 1) := by
  by_cases hl : m.Level ≥ Error
  · simp only [liveName, archiveName, selectedHandle, hl, if_true] at hcut ⊢
    constructor
    · intro e he
      unfold writeRecord cutIfNeeded splitFile initErrFile
      simp only [hl, hcut, if_true, he]
    · intro h d1 he
      have hh := (OpenFile_ok _ _ _ _ he).1
      refine ⟨{ f := { st.f with errFileObj := h },
                disk := Write d1 h ⟨m.Level, doPrintf (logStringFormat m)⟩,
                drainTasks := st.drainTasks + 1 }, ?_, rfl, ?_, hh, rfl⟩
      swap
      · simp only [selectedHandle, hl, if_true, if_false]
      unfold writeRecord cutIfNeeded splitFile initErrFile
      simp only [hl, hcut, if_true, he]
  · simp only [liveName, archiveName, selectedHandle, hl, if_false] at hcut ⊢
    constructor
    · intro e he
      unfold writeRecord cutIfNeeded splitFile initFile
      simp only [hl, hcut, if_true, if_false, he]
    · intro h d1 he
      have hh := (OpenFile_ok _ _ _ _ he).1
      refine ⟨{ f := { st.f with fileObj := h },
                disk := Write d1 h ⟨m.Level, doPrintf (logStringFormat m)⟩,
                drainTasks := st.drainTasks + 1 }, ?_, rfl, ?_, hh, rfl⟩
      swap
      · simp only [selectedHandle, hl, if_true, if_false]
      unfold writeRecord cutIfNeeded splitFile initFile
      simp only [hl, hcut, if_true, if_false, he]

/-- C7: let `size` be what a successful `Stat` reports for the handle selected for a
record. `needCut` answers true exactly when `size >= maxFileSize`. When `size >=
maxFileSize` the write step rotates before it writes: the cut check is the call of
`splitFile`, which renames the live file of the stream to the timestamped archive name and
reopens the live name; a failed reopen is the failure of the step, and after a successful
one the step has started one more drain task and written on the handle just opened. If
moreover the selected handle is on the live name and neither name is denied, the archive
then holds the previous content of the live file, of `size` bytes, and the live file holds
the new line only. When `size < maxFileSize` the cut check returns the state unchanged
(handles and file system), repeated any number of times, and the write step is the bare
write on the old handle: logger and task count as before, the line appended to the file of
the handle, every other file as it was. -/
theorem C7_cut_iff_size_reaches_max (st : State) (m : logMsg) (now : Time) (size : Int)
    (hstat : Stat st.disk (selectedHandle st m.Level) = some size) :
    (needCut st (selectedHandle st m.Level) = true ↔ size ≥ st.f.maxFileSize)
    ∧ (size ≥ st.f.maxFileSize →
        cutIfNeeded pathJoin st (selectedHandle st m.Level) m.Level now
          = splitFile pathJoin st (selectedHandle st m.Level) m.Level now
        ∧ writeRecord pathJoin st m now
          = (splitFile pathJoin st (selectedHandle st m.Level) m.Level now).bind (fun st1 =>
              .ok { st1 with
                    disk := Write st1.disk (selectedHandle st1 m.Level)
                      ⟨m.Level, doPrintf (logStringFormat m)⟩ })
        ∧ (∀ e, OpenFile
              (Rename st.disk (liveName (pathJoin st.f.filePath st.f.fileName) m.Level)
                (archiveName (pathJoin st.f.filePath st.f.fileName) m.Level now))
              (liveName (pathJoin st.f.filePath st.f.fileName) m.Level) = .error e →
            writeRecord pathJoin st m now = .error e)
        ∧ (∀ h d1, OpenFile
              (Rename st.disk (liveName (pathJoin st.f.filePath st.f.fileName) m.Level)
                (archiveName (pathJoin st.f.filePath st.f.fileName) m.Level now))
              (liveName (pathJoin st.f.filePath st.f.fileName) m.Level) = .ok (h, d1) →
            ∃ st1, writeRecord pathJoin st m now = .ok st1
              ∧ st1.disk = Write d1 h ⟨m.Level, doPrintf (logStringFormat m)⟩
              ∧ selectedHandle st1 m.Level = h
              ∧ h = ⟨liveName (pathJoin st.f.filePath st.f.fileName) m.Level⟩
              ∧ st1.drainTasks = st.drainTasks + 1)
        ∧ ((selectedHandle st m.Level).path
              = liveName (pathJoin st.f.filePath st.f.fileName) m.Level →
            st.disk.denied (liveName (pathJoin st.f.filePath st.f.fileName) m.Level) = false →
            st.disk.denied (archiveName (pathJoin st.f.filePath st.f.fileName) m.Level now)
              = false →
            ∃ st1 old, writeRecord pathJoin st m now = .ok st1
              ∧ st.disk.files (liveName (pathJoin st.f.filePath st.f.fileName) m.Level)
                = some old
              ∧ contentSize old = size
              ∧ st1.disk.files (archiveName (pathJoin st.f.filePath st.f.fileName) m.Level now)
                = some old
              ∧ st1.disk.files (liveName (pathJoin st.f.filePath st.f.fileName) m.Level)
                = some [⟨m.Level, doPrintf (logStringFormat m)⟩]
              ∧ selectedHandle st1 m.Level
                = ⟨liveName (pathJoin st.f.filePath st.f.fileName) m.Level⟩
              ∧ st1.drainTasks = st.drainTasks + 1))
    ∧ (size < st.f.maxFileSize →
        cutIfNeeded pathJoin st (selectedHandle st m.Level) m.Level now = .ok st
        ∧ (∀ n : Nat, (fun r : Except String State => r.bind (fun s =>
              cutIfNeeded pathJoin s (selectedHandle s m.Level) m.Level now))^[n] (.ok st)
            = .ok st)
        ∧ writeRecord pathJoin st m now
          = .ok { st with
                disk := Write st.disk (selectedHandle st m.Level)
                  ⟨m.Level, doPrintf (logStringFormat m)⟩ }
        ∧ (∃ st1 old, writeRecord pathJoin st m now = .ok st1
            ∧ st1.f.fileObj = st.f.fileObj ∧ st1.f.errFileObj = st.f.errFileObj
            ∧ st1.drainTasks = st.drainTasks
            ∧ st.disk.files (selectedHandle st m.Level).path = some old
            ∧ st1.disk.files (selectedHandle st m.Level).path
              = some (old ++ [⟨m.Level, doPrintf (logStringFormat m)⟩])
            ∧ ∀ p, p ≠ (selectedHandle st m.Level).path →
                st1.disk.files p = st.disk.files p)) := by
  have hn : needCut st (selectedHandle st m.Level) = decide (size ≥ st.f.maxFileSize) := by
    unfold needCut
    rw [hstat]
  have hw : writeRecord pathJoin st m now
      = (cutIfNeeded pathJoin st (selectedHandle st m.Level) m.Level now).bind (fun st1 =>
          .ok { st1 with
                disk := Write st1.disk (selectedHandle st1 m.Level)
                  ⟨m.Level, doPrintf (logStringFormat m)⟩ }) := by
    unfold writeRecord selectedHandle
    simp only
    split
    · cases cutIfNeeded pathJoin st st.f.errFileObj m.Level now <;> rfl
    · cases cutIfNeeded pathJoin st st.f.fileObj m.Level now <;> rfl
  obtain ⟨old, hold, hsz⟩ : ∃ old, st.disk.files (selectedHandle st m.Level).path = some old
      ∧ contentSize old = size := by
    unfold Stat at hstat
    cases hf : st.disk.files (selectedHandle st m.Level).path with
    | none => rw [hf] at hstat; exact absurd hstat (by simp)
    | some old =>
      rw [hf] at hstat
      exact ⟨old, rfl, Option.some.inj hstat⟩
  refine ⟨by rw [hn]; simp, ?_, ?_⟩
  · intro hs
    have hcut : needCut st (selectedHandle st m.Level) = true := by
      rw [hn]; exact decide_eq_true hs
    have hc : cutIfNeeded pathJoin st (selectedHandle st m.Level) m.Level now
        = splitFile pathJoin st (selectedHandle st m.Level) m.Level now := by
      unfold cutIfNeeded
      rw [hcut, if_pos rfl]
    obtain ⟨k1, k2⟩ := writeRecord_when_cut pathJoin st m now hcut
    refine ⟨hc, by rw [hw, hc], k1, k2, ?_⟩
    intro hpath hd1 hd2
    rw [hpath] at hold
    have hne := archiveName_ne_liveName (pathJoin st.f.filePath st.f.fileName) m.Level now
    obtain ⟨r1, r2⟩ := Rename_moved st.disk _ _ old hold hd2 hne
    obtain ⟨d1, ho⟩ := OpenFile_total
      (Rename st.disk (liveName (pathJoin st.f.filePath st.f.fileName) m.Level)
        (archiveName (pathJoin st.f.filePath st.f.fileName) m.Level now))
      (liveName (pathJoin st.f.filePath st.f.fileName) m.Level)
      (by rw [Rename_denied]; exact hd1)
    obtain ⟨st1, w1, w2, w3, -, w5⟩ := k2 _ d1 ho
    obtain ⟨-, ⟨cs, hcs⟩, horig, hother, -⟩ := OpenFile_ok _ _ _ _ ho
    have hempty : cs = [] := by
      rcases horig _ cs hcs with h | ⟨-, h⟩
      · rw [r2] at h; exact absurd h (by simp)
      · exact h
    subst hempty
    refine ⟨st1, old, w1, hold, hsz, ?_, ?_, w3, w5⟩
    · have hwo := Write_other d1 ⟨liveName (pathJoin st.f.filePath st.f.fileName) m.Level⟩
        ⟨m.Level, doPrintf (logStringFormat m)⟩
        (archiveName (pathJoin st.f.filePath st.f.fileName) m.Level now) hne
      rw [w2, hwo, hother _ hne]
      exact r1
    · rw [w2]
      have := Write_live d1 ⟨liveName (pathJoin st.f.filePath st.f.fileName) m.Level⟩
        ⟨m.Level, doPrintf (logStringFormat m)⟩ [] hcs
      simpa using this
  · intro hs
    have hc : cutIfNeeded pathJoin st (selectedHandle st m.Level) m.Level now = .ok st := by
      unfold cutIfNeeded
      rw [hn, decide_eq_false (not_le.mpr hs)]
      rfl
    have hwr : writeRecord pathJoin st m now
        = .ok { st with
              disk := Write st.disk (selectedHandle st m.Level)
                ⟨m.Level, doPrintf (logStringFormat m)⟩ } := by
      rw [hw, hc]; rfl
    refine ⟨hc, ?_, hwr, ⟨_, old, hwr, rfl, rfl, rfl, hold, ?_, ?_⟩⟩
    · intro n
      induction n with
      | zero => rfl
      | succ k ih =>
        rw [Function.iterate_succ_apply', ih]
        exact hc
    · exact Write_live _ _ _ _ hold
    · intro p hp
      exact Write_other _ _ _ _ hp

/-- C7 (witness): a live info file of exactly 5 bytes with `maxFileSize` 5 is rotated by
the write of a record below `Error` (the archive gets the 5 bytes); the sample logger, whose
live info file is empty with `maxFileSize` 100, is not. -/
theorem C7_cut_iff_size_reaches_max_witness :
    Stat boundaryState.disk (selectedHandle boundaryState sampleMsg.Level) = some 5
    ∧ (5 : Int) ≥ boundaryState.f.maxFileSize
    ∧ (∃ st1 old, writeRecord slashJoin boundaryState sampleMsg sampleTime = .ok st1
        ∧ boundaryState.disk.files
            (liveName (slashJoin boundaryState.f.filePath boundaryState.f.fileName)
              sampleMsg.Level) = some old
        ∧ contentSize old = 5
        ∧ st1.disk.files
            (archiveName (slashJoin boundaryState.f.filePath boundaryState.f.fileName)
              sampleMsg.Level sampleTime) = some old
        ∧ st1.disk.files
            (liveName (slashJoin boundaryState.f.filePath boundaryState.f.fileName)
              sampleMsg.Level) = some [⟨sampleMsg.Level, doPrintf (logStringFormat sampleMsg)⟩]
        ∧ selectedHandle st1 sampleMsg.Level
          = ⟨liveName (slashJoin boundaryState.f.filePath boundaryState.f.fileName)
              sampleMsg.Level⟩
        ∧ st1.drainTasks = boundaryState.drainTasks + 1)
    ∧ Stat sampleState.disk (selectedHandle sampleState sampleMsg.Level) = some 0
    ∧ (needCut sampleState (selectedHandle sampleState sampleMsg.Level) = true
        ↔ (0 : Int) ≥ sampleState.f.maxFileSize) :=
  ⟨rfl, by decide,
    ((C7_cut_iff_size_reaches_max slashJoin boundaryState sampleMsg sampleTime 5 rfl).2.1
      (by decide)).2.2.2.2 rfl rfl rfl,
    rfl, (C7_cut_iff_size_reaches_max slashJoin sampleState sampleMsg sampleTime 0 rfl).1⟩

/-- The rotation at the boundary, evaluated: the archive `logs/app-20240309080501.log`
holds the 5 old bytes and the live `logs/app.log` holds the new line only. -/
theorem boundary_rotation_evaluated :
    (writeRecord slashJoin boundaryState sampleMsg sampleTime).map (fun st =>
        (st.disk.files "logs/app-20240309080501.log", st.disk.files "logs/app.log",
          st.f.fileObj, st.drainTasks))
      = .ok (some [⟨Warn, "12345"⟩],
          some [⟨Info, "[2024-03-09 08:05:01] [ INFO] [main.go:main:7] - hello\n"⟩],
          ⟨"logs/app.log"⟩, 3) := by
  decide

end Claims

end Glog
